import Mathlib

/-!
Shallow embedding of the RepoHealth report engine.

Sources embedded:
  * `src/unnamed/part_001` — the local heuristic analyzer (`buildLocalReport`,
    `deriveGrade`, `deriveRiskLevel`, and their helpers).
  * `src/src/lib/reportBuilder.js` (second segment, the AI enhancer) — the
    orchestrator (`enrichReportWithAI`, `resolveExecutionPlan`,
    `runSequentialFlow`, `runHybridFlow`) and the merge/normalization layer
    (`mergeReports`, `mergeHybridReports`, `blendScore`, sanitizers).

Modelling conventions:
  * JavaScript numbers are modelled as rationals (`ℚ`); every score stored in a
    report is integer-valued in the source (it is produced by
    `Math.round`/`clamp`), so report score fields are modelled as `ℤ`.
  * Untrusted candidate JSON payloads are modelled by option-typed records: a
    field of type `Option ℚ` is `some v` exactly when the source would see a
    finite number there (`Number.isFinite`), `Option String` is `some s`
    exactly when the source would see a string there, and a list field models
    a JS array (a missing / non-array field behaves identically to `[]` at
    every read site, since both take the fallback branch).
  * Network calls, prompt construction, and `Promise` scheduling are outside
    the embedding: the flows are modelled from the point where every provider
    attempt has settled into either a parsed candidate or an error message.
  * The per-file regex scanner `analyzeFile` is not embedded; `buildLocalReport`
    is factored over its output (`analyses`), exactly at the
    `snapshot.files.map(analyzeFile)` boundary of the source, and theorems
    quantify over all possible analysis lists.  `analyzeFile` preserves `path`
    and produces one record per file, so the factoring is exact.
-/

namespace RepoHealth

/-- JS `Math.round`: rounds half-values toward positive infinity. -/
def mathRound (q : ℚ) : ℤ := ⌊q + 1/2⌋

/-- `clamp(value, min, max) = Math.max(min, Math.min(max, value))` on the
integer-valued scores that every call site of the source passes. -/
def clamp (value lo hi : ℤ) : ℤ := max lo (min hi value)

/-- `average(values)` from the enhancer: sum divided by length, `0` on `[]`. -/
def average (values : List ℚ) : ℚ :=
  if values.isEmpty then 0 else values.sum / values.length

/-- JS `String.prototype.includes`: substring containment. -/
def strContains (s pat : String) : Bool :=
  let sl := s.toList
  let pl := pat.toList
  (List.range (sl.length + 1)).any (fun i => pl.isPrefixOf (sl.drop i))

/-- JS `Number.prototype.toFixed(1)` modelled for the small rational values the
analyzer feeds it: one decimal digit, rounding half away from zero. -/
def toFixed1 (q : ℚ) : String :=
  let scaled : ℤ := if q < 0 then -mathRound (-q * 10) else mathRound (q * 10)
  let m := scaled.natAbs
  (if scaled < 0 then "-" else "") ++ toString (m / 10) ++ "." ++ toString (m % 10)

/-- JS `a.localeCompare(b, 'en')`, approximated by code-point order: the merge
code only uses its sign to order file names. -/
def localeCompare (a b : String) : ℤ :=
  if a < b then -1 else if b < a then 1 else 0

/-- Insert `x` into a sorted list, keeping every element that compares
strictly-before `x` in front of it (ties keep the incoming element first, which
matches a stable JS `Array.prototype.sort`). -/
def insertSorted (cmp : α → α → ℤ) (x : α) : List α → List α
  | [] => [x]
  | y :: ys => if cmp y x < 0 then y :: insertSorted cmp x ys else x :: y :: ys

/-- Stable comparator sort, modelling JS `Array.prototype.sort(cmp)`. -/
def sortWith (cmp : α → α → ℤ) : List α → List α
  | [] => []
  | x :: xs => insertSorted cmp x (sortWith cmp xs)

/-- `dedupeBy(items, getKey)` from the enhancer, with the running `seen` set as
an explicit accumulator. -/
def dedupeByAux (key : α → String) : List α → List String → List α
  | [], _ => []
  | x :: xs, seen =>
    if key x ∈ seen then dedupeByAux key xs seen
    else x :: dedupeByAux key xs (key x :: seen)

/-- `dedupeBy(items, getKey)`: keep the first item for each key. -/
def dedupeBy (items : List α) (key : α → String) : List α :=
  dedupeByAux key items []

/-- One `counter.set(value, (counter.get(value) || 0) + 1)` step on a JS `Map`
represented as an insertion-ordered association list. -/
def bumpCounter : List (String × ℕ) → String → List (String × ℕ)
  | [], v => [(v, 1)]
  | (k, c) :: rest, v =>
    if k = v then (k, c + 1) :: rest else (k, c) :: bumpCounter rest v

/-- The counting loop of `mostFrequent`: a JS `Map` keyed in first-insertion
order, mapping each value to its number of occurrences. -/
def buildCounter (values : List String) : List (String × ℕ) :=
  values.foldl bumpCounter []

/-- One step of the winner scan in `mostFrequent`: replace the running winner
when this entry's count strictly exceeds the running maximum. -/
def winnerStep (acc : Option String × ℤ) (entry : String × ℕ) :
    Option String × ℤ :=
  if (entry.2 : ℤ) > acc.2 then (some entry.1, (entry.2 : ℤ)) else acc

/-- `mostFrequent(values)` from the enhancer: scan the counter entries keeping
the first entry whose count strictly exceeds the running maximum. -/
def mostFrequent (values : List String) : Option String :=
  if values.isEmpty then none
  else ((buildCounter values).foldl winnerStep (none, -1)).1

/-! ## Report data model -/

/-- A per-file issue as produced by `analyzeFile` (field `type` is the source's
category tag). -/
structure LocalIssue where
  severity : String
  title : String
  description : String
  recommendation : String
  type : String
  deriving Repr, DecidableEq

/-- The record `analyzeFile` returns for one file. -/
structure FileAnalysis where
  path : String
  loc : ℕ
  commentRatio : ℚ
  complexityScore : ℤ
  issues : List LocalIssue
  deriving Repr, DecidableEq

/-- An issue flattened with its file context (`{...issue, file, complexityScore}`). -/
structure FlatIssue where
  severity : String
  title : String
  description : String
  recommendation : String
  type : String
  file : String
  complexityScore : ℤ
  deriving Repr, DecidableEq

/-- The five category scores of a report. -/
structure Categories where
  maintainability : ℤ
  reliability : ℤ
  security : ℤ
  documentation : ℤ
  architecture : ℤ
  deriving Repr, DecidableEq

/-- The `risk` block of a report. -/
structure Risk where
  level : String
  score : ℤ
  dominantRisks : List String
  deriving Repr, DecidableEq

/-- One heatmap row. -/
structure HeatmapEntry where
  file : String
  complexityScore : ℤ
  issues : ℕ
  loc : ℕ
  risk : String
  deriving Repr, DecidableEq

/-- One `topIssues` row. -/
structure Issue where
  file : String
  title : String
  description : String
  severity : String
  recommendation : String
  deriving Repr, DecidableEq

/-- One `priorityFixes` row. -/
structure Fix where
  file : String
  suggestion : String
  impact : String
  effort : String
  rationale : String
  deriving Repr, DecidableEq

/-- The `scoreWeights` block `withMeta` writes (`local` is a Lean keyword, so
the field is `localW`). -/
structure ScoreWeights where
  localW : ℚ
  ai : ℚ
  deriving Repr, DecidableEq

/-- `analysisMeta`.  The baseline report omits `fallbackReason`,
`stabilityMode` and `scoreWeights` (modelled as `none`); `withMeta` fills them. -/
structure AnalysisMeta where
  provider : String
  model : String
  filesAnalyzed : ℕ
  estimatedLoc : ℕ
  fallbackUsed : Bool
  fallbackReason : Option String
  sampling : String
  stabilityMode : Option String
  scoreWeights : Option ScoreWeights
  deriving Repr, DecidableEq

/-- The Report contract produced by the analyzer and the merge layer.
`project` and `sampling` are opaque payloads copied verbatim, modelled as
strings. -/
structure Report where
  reportVersion : String
  generatedAt : String
  project : String
  overallScore : ℤ
  grade : String
  confidence : ℤ
  summary : String
  categories : Categories
  risk : Risk
  heatmap : List HeatmapEntry
  topIssues : List Issue
  priorityFixes : List Fix
  quickWins : List String
  strengths : List String
  nextMilestones : List String
  analysisMeta : AnalysisMeta
  deriving Repr, DecidableEq

/-! ## Local heuristic analyzer (`src/unnamed/part_001`) -/

/-- `SEVERITY_ORDER` / `SEVERITY_RANK` (both generations use the same table);
a severity outside the table ranks `0` (the enhancer's `|| 0`). -/
def severityRank (s : String) : ℤ :=
  if s = "Critical" then 4
  else if s = "High" then 3
  else if s = "Medium" then 2
  else if s = "Low" then 1
  else 0

/-- `IMPACT_RANK`, with the enhancer's `|| 0` default. -/
def impactRank (s : String) : ℤ :=
  if s = "High" then 2 else if s = "Medium" then 1 else 0

/-- `EFFORT_RANK`, with the enhancer's `|| 0` default. -/
def effortRank (s : String) : ℤ :=
  if s = "Low" then 3 else if s = "Medium" then 2 else if s = "High" then 1 else 0

/-- `deriveGrade(score)`. -/
def deriveGrade (score : ℤ) : String :=
  if score ≥ 90 then "A+"
  else if score ≥ 82 then "A"
  else if score ≥ 74 then "B"
  else if score ≥ 65 then "C"
  else if score ≥ 55 then "D"
  else "F"

/-- `deriveRiskLevel(score)`. -/
def deriveRiskLevel (score : ℤ) : String :=
  if score ≤ 28 then "Low"
  else if score ≤ 52 then "Moderate"
  else if score ≤ 75 then "Elevated"
  else "Critical"

/-- `scoreArchitecture(files, largeFiles)` (only file paths are read). -/
def scoreArchitecture (paths : List String) (largeFiles : ℕ) : ℤ :=
  if paths.isEmpty then 40
  else
    let roots := paths.map (fun p =>
      if strContains p "/" then (p.splitOn "/").headD "" else "(root)")
    let directoryCounts := buildCounter roots
    let busiestRoot : ℕ := (directoryCounts.map (·.2)).foldl max 0
    let concentration : ℚ := (busiestRoot : ℚ) / (paths.length : ℚ)
    clamp
      (mathRound (92 - concentration * 26 - (largeFiles : ℚ) * 3 +
        (min directoryCounts.length 6 : ℕ) * 2))
      25 96

/-- `buildDominantRisks({...})`: conditions checked in a fixed order, capped at 4. -/
def buildDominantRisks (critical high securityFindings lowCommentFiles largeFiles : ℕ)
    (averageComplexity : ℚ) : List String :=
  let risks :=
    (if securityFindings > 0 ∨ critical > 0 then
      ["Security hardening required in critical paths"] else []) ++
    (if averageComplexity ≥ 6 then
      ["High branching complexity in core files"] else []) ++
    (if largeFiles > 2 then
      ["Large file surfaces increase regression probability"] else []) ++
    (if lowCommentFiles > 0 then
      ["Sparse documentation around implementation details"] else []) ++
    (if high + critical ≥ 4 then
      ["Several high-severity issues need prioritized remediation"] else [])
  risks.take 4

/-- `buildSummary({...})`. -/
def buildSummary (overallScore riskScore : ℤ) (critical high medium : ℕ)
    (averageComplexity : ℚ) (topIssues : List Issue) : String :=
  match topIssues with
  | [] =>
    "Codebase health is strong with an overall score of " ++ toString overallScore ++
      "/100. No major red flags were found in sampled files."
  | keyIssue :: _ =>
    "Overall score is " ++ toString overallScore ++ "/100 with " ++
      (deriveRiskLevel riskScore).toLower ++
      " operational risk. Average complexity sits at " ++
      toFixed1 averageComplexity ++ "/10; highest-priority concern is \"" ++
      keyIssue.title ++ "\" (" ++ keyIssue.severity ++ "). Issue distribution: " ++
      toString critical ++ " critical, " ++ toString high ++ " high, " ++
      toString medium ++ " medium."

/-- `buildQuickWins(topIssues, lowCommentFiles, fileCount)`. -/
def buildQuickWins (topIssues : List Issue) (lowCommentFiles fileCount : ℕ) :
    List String :=
  let wins :=
    (if topIssues.any (fun issue => strContains issue.title "Debug residue") then
      ["Remove debug logs/TODO markers from production code paths."] else []) ++
    (if topIssues.any (fun issue => strContains issue.title "Loose typing") then
      ["Replace high-traffic `any` types with explicit interfaces."] else []) ++
    (if lowCommentFiles > 0 then
      ["Add concise comments to " ++ toString lowCommentFiles ++
        " low-context file(s)."] else []) ++
    (if fileCount > 20 then
      ["Create ownership tags for key modules to improve review velocity."] else [])
  let wins :=
    if wins.isEmpty then
      ["Introduce a CI quality gate for linting and vulnerability checks."]
    else wins
  wins.take 5

/-- `buildStrengths({...})`. -/
def buildStrengths (averageComplexity : ℚ) (securityFindings critical high : ℕ)
    (categoryScores : Categories) : List String :=
  let strengths :=
    (if averageComplexity ≤ 4 then
      ["Core files maintain manageable complexity levels."] else []) ++
    (if securityFindings = 0 then
      ["No direct high-confidence secret leakage patterns were detected."] else []) ++
    (if critical = 0 ∧ high ≤ 1 then
      ["High-severity defect density is currently low."] else []) ++
    (if categoryScores.architecture ≥ 75 then
      ["File distribution suggests healthy modular boundaries."] else [])
  let strengths :=
    if strengths.isEmpty then
      ["Core repository structure is analyzable and remediation-ready."]
    else strengths
  strengths.take 4

/-- `buildMilestones(categories)`. -/
def buildMilestones (categories : Categories) : List String :=
  let milestones :=
    (if categories.security < 75 then
      ["Run a focused security hardening sprint on auth/input/output boundaries."]
    else []) ++
    (if categories.maintainability < 75 then
      ["Refactor high-complexity files into smaller modules with test coverage."]
    else []) ++
    (if categories.documentation < 70 then
      ["Add architecture notes and contributor-facing onboarding docs."] else []) ++
    (if categories.reliability < 75 then
      ["Add failure-path observability and stronger error handling contracts."]
    else [])
  let milestones :=
    if milestones.isEmpty then
      ["Automate weekly trend reporting to keep quality improvements visible."]
    else milestones
  milestones.take 4

/-- `estimateEffort(issue)`. -/
def estimateEffort (issue : Issue) : String :=
  if issue.severity = "Critical" then "Medium"
  else if strContains issue.title "Oversized file" then "High"
  else if issue.severity = "High" then "Medium"
  else "Low"

/-- Comparator of the `topIssues` sort in `buildLocalReport`. -/
def localIssueCmp (a b : FlatIssue) : ℤ :=
  let severityDelta := severityRank b.severity - severityRank a.severity
  if severityDelta ≠ 0 then severityDelta else b.complexityScore - a.complexityScore

/-- Comparator of the heatmap sort in `buildLocalReport`. -/
def heatCmp (a b : FileAnalysis) : ℤ :=
  let d := b.complexityScore - a.complexityScore
  if d ≠ 0 then d else (b.loc : ℤ) - (a.loc : ℤ)

/-- `buildLocalReport(snapshot)`, factored over `analyses =
snapshot.files.map(analyzeFile)` (see the module comment); `generatedAt` stands
for `new Date().toISOString()` and `project`/`sampling` for the snapshot
payloads copied verbatim. -/
def buildLocalReport (generatedAt project sampling : String)
    (analyses : List FileAnalysis) : Report :=
  let totalLoc := (analyses.map (·.loc)).sum
  let allIssues : List FlatIssue := analyses.flatMap (fun f =>
    f.issues.map (fun i =>
      { severity := i.severity, title := i.title, description := i.description,
        recommendation := i.recommendation, type := i.type, file := f.path,
        complexityScore := f.complexityScore }))
  let criticalCount := (allIssues.filter (fun i => i.severity = "Critical")).length
  let highCount := (allIssues.filter (fun i => i.severity = "High")).length
  let mediumCount := (allIssues.filter (fun i => i.severity = "Medium")).length
  let securityFindings := (allIssues.filter (fun i => i.type = "security")).length
  let reliabilityFindings := (allIssues.filter (fun i => i.type = "reliability")).length
  let averageComplexity : ℚ :=
    if analyses.length = 0 then 0
    else ((analyses.map (·.complexityScore)).sum : ℚ) / (analyses.length : ℚ)
  let largeFiles := (analyses.filter (fun f => decide (320 < f.loc))).length
  let lowCommentFiles :=
    (analyses.filter (fun f =>
      decide (f.commentRatio < 3/100) && decide (80 < f.loc))).length
  let issueDensity : ℚ :=
    if analyses.length = 0 then 0
    else (allIssues.length : ℚ) / (analyses.length : ℚ)
  let categoryScores : Categories :=
    { maintainability :=
        clamp (mathRound (96 - averageComplexity * 6 - issueDensity * 5 -
          (largeFiles : ℚ) * 2)) 20 98
      reliability :=
        clamp (mathRound (95 - (criticalCount : ℚ) * 14 - (highCount : ℚ) * 8 -
          (reliabilityFindings : ℚ) * 4)) 15 97
      security :=
        clamp (mathRound (96 - (criticalCount : ℚ) * 18 - (securityFindings : ℚ) * 8 -
          (highCount : ℚ) * 3)) 10 98
      documentation :=
        clamp (mathRound (70 + (analyses.map (·.commentRatio)).sum *
          (if analyses.length = 0 then 0 else 180 / (analyses.length : ℚ)) -
          (lowCommentFiles : ℚ) * 5)) 20 96
      architecture := scoreArchitecture (analyses.map (·.path)) largeFiles }
  let overallScore :=
    clamp
      (mathRound ((categoryScores.maintainability : ℚ) * (3/10) +
        (categoryScores.reliability : ℚ) * (1/4) +
        (categoryScores.security : ℚ) * (1/4) +
        (categoryScores.documentation : ℚ) * (1/10) +
        (categoryScores.architecture : ℚ) * (1/10)))
      10 99
  let riskScore :=
    clamp
      (mathRound ((100 - (overallScore : ℚ)) * (65/100) + (criticalCount : ℚ) * 12 +
        (highCount : ℚ) * 7 + (securityFindings : ℚ) * 4))
      5 100
  let dominantRisks :=
    buildDominantRisks criticalCount highCount securityFindings lowCommentFiles
      largeFiles averageComplexity
  let topIssues : List Issue :=
    ((sortWith localIssueCmp allIssues).take 12).map (fun issue =>
      { file := issue.file, title := issue.title, description := issue.description,
        severity := issue.severity, recommendation := issue.recommendation })
  let priorityFixes : List Fix :=
    (topIssues.take 6).map (fun issue =>
      { file := issue.file, suggestion := issue.recommendation,
        impact :=
          if issue.severity = "Critical" ∨ issue.severity = "High" then "High"
          else "Medium",
        effort := estimateEffort issue, rationale := issue.title })
  { reportVersion := "2.0"
    generatedAt := generatedAt
    project := project
    overallScore := overallScore
    grade := deriveGrade overallScore
    confidence :=
      clamp (mathRound (42 + (min analyses.length 28 : ℕ) * (17/10 : ℚ) +
        (min totalLoc 9000 : ℕ) / (180 : ℚ))) 45 96
    summary :=
      buildSummary overallScore riskScore criticalCount highCount mediumCount
        averageComplexity topIssues
    categories := categoryScores
    risk :=
      { level := deriveRiskLevel riskScore, score := riskScore,
        dominantRisks := dominantRisks }
    heatmap :=
      ((sortWith heatCmp analyses).take 20).map (fun f =>
        { file := f.path, complexityScore := f.complexityScore,
          issues := f.issues.length, loc := f.loc,
          risk :=
            deriveRiskLevel
              (clamp (f.complexityScore * 10 + (f.issues.length : ℤ) * 4) 5 100) })
    topIssues := topIssues
    priorityFixes := priorityFixes
    quickWins := buildQuickWins topIssues lowCommentFiles analyses.length
    strengths :=
      buildStrengths averageComplexity securityFindings criticalCount highCount
        categoryScores
    nextMilestones := buildMilestones categoryScores
    analysisMeta :=
      { provider := "local-heuristics", model := "rule-engine-v2",
        filesAnalyzed := analyses.length, estimatedLoc := totalLoc,
        fallbackUsed := false, fallbackReason := none, sampling := sampling,
        stabilityMode := none, scoreWeights := none } }

/-! ## Untrusted candidate payloads (AI JSON output after parsing) -/

/-- The five category fields of a candidate payload; `some v` when the value is
a finite number. -/
structure CandCategories where
  maintainability : Option ℚ := none
  reliability : Option ℚ := none
  security : Option ℚ := none
  documentation : Option ℚ := none
  architecture : Option ℚ := none
  deriving Repr, DecidableEq

/-- A candidate's `risk` block; an absent block reads identically to a block
with every field absent. -/
structure CandRisk where
  score : Option ℚ := none
  level : Option String := none
  dominantRisks : List (Option String) := []
  deriving Repr, DecidableEq

/-- A candidate issue item; `none` fields are non-string values. -/
structure CandIssue where
  file : Option String := none
  title : Option String := none
  description : Option String := none
  severity : Option String := none
  recommendation : Option String := none
  deriving Repr, DecidableEq

/-- A candidate fix item. -/
structure CandFix where
  file : Option String := none
  suggestion : Option String := none
  impact : Option String := none
  effort : Option String := none
  rationale : Option String := none
  deriving Repr, DecidableEq

/-- A parsed candidate payload.  List elements that are not objects (for the
issue/fix lists) or not strings (for the string lists) are `none`; a missing or
non-array list field behaves like `[]` at every read site. -/
structure Candidate where
  summary : Option String := none
  categories : CandCategories := {}
  risk : CandRisk := {}
  topIssues : List (Option CandIssue) := []
  priorityFixes : List (Option CandFix) := []
  quickWins : List (Option String) := []
  strengths : List (Option String) := []
  nextMilestones : List (Option String) := []
  deriving Repr, DecidableEq

/-! ## Sanitizers and normalizers (AI enhancer) -/

/-- `sanitizeText(value)`: non-strings (`none`) and blank strings become
`null`; otherwise the trimmed string. -/
def sanitizeText (value : Option String) : Option String :=
  value.bind (fun s =>
    let trimmed := s.trim
    if trimmed.isEmpty then none else some trimmed)

/-- `sanitizeSeverity(value)`. -/
def sanitizeSeverity (value : Option String) : String :=
  match sanitizeText value with
  | some s => if s = "Critical" ∨ s = "High" ∨ s = "Medium" ∨ s = "Low" then s
      else "Medium"
  | none => "Medium"

/-- `sanitizeImpact(value)`. -/
def sanitizeImpact (value : Option String) : String :=
  match sanitizeText value with
  | some s => if s = "High" then "High" else "Medium"
  | none => "Medium"

/-- `sanitizeEffort(value)`. -/
def sanitizeEffort (value : Option String) : String :=
  match sanitizeText value with
  | some s => if s = "Low" ∨ s = "Medium" ∨ s = "High" then s else "Medium"
  | none => "Medium"

/-- `sanitizeRiskLevel(value)`: `some` only for the four canonical levels. -/
def sanitizeRiskLevel (value : Option String) : Option String :=
  match sanitizeText value with
  | some s =>
    if s = "Low" ∨ s = "Moderate" ∨ s = "Elevated" ∨ s = "Critical" then some s
    else none
  | none => none

/-- `normalizeStringArray(candidate, limit, fallback)`. -/
def normalizeStringArray (candidate : List (Option String)) (limit : ℕ)
    (fallback : List String) : List String :=
  if candidate.isEmpty then fallback
  else
    let normalized := ((candidate.map sanitizeText).filterMap id).take limit
    if normalized.isEmpty then fallback else normalized

/-- `normalizeIssues(issues, fallback)`. -/
def normalizeIssues (issues : List (Option CandIssue)) (fallback : List Issue) :
    List Issue :=
  if issues.isEmpty then fallback
  else
    let normalized := ((issues.filterMap id).map (fun item =>
      { file := (sanitizeText item.file).getD "Unknown file"
        title := (sanitizeText item.title).getD "Untitled issue"
        description := (sanitizeText item.description).getD "No description provided."
        severity := sanitizeSeverity item.severity
        recommendation :=
          (sanitizeText item.recommendation).getD
            "Review this issue and implement an explicit fix."
        : Issue })).take 12
    if normalized.isEmpty then fallback else normalized

/-- `normalizeFixes(fixes, fallback)`. -/
def normalizeFixes (fixes : List (Option CandFix)) (fallback : List Fix) :
    List Fix :=
  if fixes.isEmpty then fallback
  else
    let normalized := ((fixes.filterMap id).map (fun item =>
      { file := (sanitizeText item.file).getD "Unknown file"
        suggestion :=
          (sanitizeText item.suggestion).getD "Implement targeted quality improvement."
        impact := sanitizeImpact item.impact
        effort := sanitizeEffort item.effort
        rationale :=
          (sanitizeText item.rationale).getD
            "Improves quality, resilience, or security."
        : Fix })).take 6
    if normalized.isEmpty then fallback else normalized

/-- `uniqueStrings(items)`: sanitize, drop blanks, case-insensitive first-seen
de-duplication. -/
def uniqueStrings (items : List String) : List String :=
  dedupeBy ((items.map (fun s => sanitizeText (some s))).filterMap id)
    (fun s => s.toLower)

/-! ## Merge layer (AI enhancer) -/

/-- `blendScore(baseScore, aiScore)` with the process-wide `SCORE_BASE_WEIGHT`
as explicit parameter `w` (`SCORE_AI_WEIGHT = 1 - w`).  The source's
`Number.isFinite` guards on the two arguments are vacuous here because every
value reaching them is a finite rational. -/
def blendScore (w : ℚ) (baseScore aiScore : ℚ) : ℤ :=
  clamp (mathRound (baseScore * w + aiScore * (1 - w))) 0 100

/-- One iteration of the `CATEGORY_KEYS` loop of `mergeReports` (also the
`risk.score` ternary): blend when the candidate value is a finite number,
otherwise keep the baseline value untouched. -/
def blendOpt (w : ℚ) (baseVal : ℤ) (candidate : Option ℚ) : ℤ :=
  match candidate with
  | some v => blendScore w (baseVal : ℚ) v
  | none => baseVal

/-- `mergeReports(base, candidate)`: the single-candidate merge. -/
def mergeReports (w : ℚ) (base : Report) (candidate : Candidate) : Report :=
  let mergedCategories : Categories :=
    { maintainability :=
        blendOpt w base.categories.maintainability candidate.categories.maintainability
      reliability :=
        blendOpt w base.categories.reliability candidate.categories.reliability
      security :=
        blendOpt w base.categories.security candidate.categories.security
      documentation :=
        blendOpt w base.categories.documentation candidate.categories.documentation
      architecture :=
        blendOpt w base.categories.architecture candidate.categories.architecture }
  let overallScore :=
    clamp
      (mathRound ((mergedCategories.maintainability : ℚ) * (3/10) +
        (mergedCategories.reliability : ℚ) * (1/4) +
        (mergedCategories.security : ℚ) * (1/4) +
        (mergedCategories.documentation : ℚ) * (1/10) +
        (mergedCategories.architecture : ℚ) * (1/10)))
      10 99
  let riskScore := blendOpt w base.risk.score candidate.risk.score
  { base with
    summary := (sanitizeText candidate.summary).getD base.summary
    categories := mergedCategories
    overallScore := overallScore
    grade := deriveGrade overallScore
    risk :=
      { score := riskScore
        level := (sanitizeRiskLevel candidate.risk.level).getD (deriveRiskLevel riskScore)
        dominantRisks :=
          normalizeStringArray candidate.risk.dominantRisks 4 base.risk.dominantRisks }
    topIssues := normalizeIssues candidate.topIssues base.topIssues
    priorityFixes := normalizeFixes candidate.priorityFixes base.priorityFixes
    quickWins := normalizeStringArray candidate.quickWins 6 base.quickWins
    strengths := normalizeStringArray candidate.strengths 5 base.strengths
    nextMilestones := normalizeStringArray candidate.nextMilestones 5 base.nextMilestones }

/-- One fulfilled hybrid provider attempt (`{provider, model, parsed}`). -/
structure SuccessItem where
  provider : String
  model : String
  parsed : Candidate
  deriving Repr, DecidableEq

/-- The per-category consensus step of `mergeHybridReports`: collect finite
values, clamp each into `[0,100]`, average, then blend with the baseline. -/
def hybridBlend (w : ℚ) (baseVal : ℤ) (raw : List (Option ℚ)) : ℤ :=
  let values := (raw.filterMap id).map (fun v => clamp (mathRound v) 0 100)
  let aiAverage : Option ℤ :=
    if values.isEmpty then none
    else some (mathRound (average (values.map (fun z : ℤ => (z : ℚ)))))
  match aiAverage with
  | none => baseVal
  | some a => blendScore w (baseVal : ℚ) (a : ℚ)

/-- `buildConsensusSummary(candidateSummaries, fallback)`. -/
def buildConsensusSummary (candidateSummaries : List String) (fallback : String) :
    String :=
  match uniqueStrings candidateSummaries with
  | [] => fallback
  | [one] => one
  | a :: b :: _ => a ++ " Consensus view: " ++ b

/-- Key of the issue de-duplication in `mergeIssueSets`. -/
def issueKey (issue : Issue) : String :=
  ((sanitizeText (some issue.file)).getD "Unknown file") ++ "::" ++
    ((sanitizeText (some issue.title)).getD "Untitled issue")

/-- Key of the fix de-duplication in `mergeFixSets`. -/
def fixKey (fix : Fix) : String :=
  ((sanitizeText (some fix.file)).getD "Unknown file") ++ "::" ++
    ((sanitizeText (some fix.suggestion)).getD "General improvement")

/-- Comparator of the issue sort in `mergeIssueSets`. -/
def mergedIssueCmp (a b : Issue) : ℤ :=
  let severityDelta := severityRank b.severity - severityRank a.severity
  if severityDelta ≠ 0 then severityDelta else localeCompare a.file b.file

/-- Comparator of the fix sort in `mergeFixSets`. -/
def mergedFixCmp (a b : Fix) : ℤ :=
  let impactDelta := impactRank b.impact - impactRank a.impact
  if impactDelta ≠ 0 then impactDelta
  else
    let effortDelta := effortRank b.effort - effortRank a.effort
    if effortDelta ≠ 0 then effortDelta else localeCompare a.file b.file

/-- `mergeIssueSets(base, candidates)`. -/
def mergeIssueSets (base : Report) (candidates : List SuccessItem) : List Issue :=
  let combined :=
    base.topIssues ++ candidates.flatMap (fun item => normalizeIssues item.parsed.topIssues [])
  let deduped := dedupeBy combined issueKey
  let sorted :=
    (sortWith mergedIssueCmp (deduped.map (fun issue =>
      { file := (sanitizeText (some issue.file)).getD "Unknown file"
        title := (sanitizeText (some issue.title)).getD "Untitled issue"
        description :=
          (sanitizeText (some issue.description)).getD "No description provided."
        severity := sanitizeSeverity (some issue.severity)
        recommendation :=
          (sanitizeText (some issue.recommendation)).getD
            "Review this issue and implement an explicit fix."
        : Issue }))).take 12
  if sorted.isEmpty then base.topIssues else sorted

/-- `mergeFixSets(base, candidates)`. -/
def mergeFixSets (base : Report) (candidates : List SuccessItem) : List Fix :=
  let combined :=
    base.priorityFixes ++
      candidates.flatMap (fun item => normalizeFixes item.parsed.priorityFixes [])
  let deduped := dedupeBy combined fixKey
  let sorted :=
    (sortWith mergedFixCmp (deduped.map (fun fix =>
      { file := (sanitizeText (some fix.file)).getD "Unknown file"
        suggestion :=
          (sanitizeText (some fix.suggestion)).getD
            "Implement targeted quality improvement."
        impact := sanitizeImpact (some fix.impact)
        effort := sanitizeEffort (some fix.effort)
        rationale :=
          (sanitizeText (some fix.rationale)).getD
            "Improves quality, resilience, or security."
        : Fix }))).take 6
  if sorted.isEmpty then base.priorityFixes else sorted

/-- `mergeHybridReports(base, candidates)`: the consensus merge. -/
def mergeHybridReports (w : ℚ) (base : Report) (candidates : List SuccessItem) :
    Report :=
  let categoryScores : Categories :=
    { maintainability :=
        hybridBlend w base.categories.maintainability
          (candidates.map (fun item => item.parsed.categories.maintainability))
      reliability :=
        hybridBlend w base.categories.reliability
          (candidates.map (fun item => item.parsed.categories.reliability))
      security :=
        hybridBlend w base.categories.security
          (candidates.map (fun item => item.parsed.categories.security))
      documentation :=
        hybridBlend w base.categories.documentation
          (candidates.map (fun item => item.parsed.categories.documentation))
      architecture :=
        hybridBlend w base.categories.architecture
          (candidates.map (fun item => item.parsed.categories.architecture)) }
  let overallScore :=
    clamp
      (mathRound ((categoryScores.maintainability : ℚ) * (3/10) +
        (categoryScores.reliability : ℚ) * (1/4) +
        (categoryScores.security : ℚ) * (1/4) +
        (categoryScores.documentation : ℚ) * (1/10) +
        (categoryScores.architecture : ℚ) * (1/10)))
      10 99
  let riskScore :=
    hybridBlend w base.risk.score (candidates.map (fun item => item.parsed.risk.score))
  let riskVotes :=
    candidates.filterMap (fun item => sanitizeRiskLevel item.parsed.risk.level)
  let riskLevel := (mostFrequent riskVotes).getD (deriveRiskLevel riskScore)
  let dominantRisks :=
    (uniqueStrings (base.risk.dominantRisks ++
      candidates.flatMap (fun item =>
        normalizeStringArray item.parsed.risk.dominantRisks 6 []))).take 4
  let candidateSummaries :=
    candidates.filterMap (fun item => sanitizeText item.parsed.summary)
  { base with
    summary := buildConsensusSummary candidateSummaries base.summary
    categories := categoryScores
    overallScore := overallScore
    grade := deriveGrade overallScore
    risk := { score := riskScore, level := riskLevel, dominantRisks := dominantRisks }
    topIssues := mergeIssueSets base candidates
    priorityFixes := mergeFixSets base candidates
    quickWins :=
      (uniqueStrings (base.quickWins ++
        candidates.flatMap (fun item =>
          normalizeStringArray item.parsed.quickWins 6 []))).take 6
    strengths :=
      (uniqueStrings (base.strengths ++
        candidates.flatMap (fun item =>
          normalizeStringArray item.parsed.strengths 6 []))).take 5
    nextMilestones :=
      (uniqueStrings (base.nextMilestones ++
        candidates.flatMap (fun item =>
          normalizeStringArray item.parsed.nextMilestones 6 []))).take 5 }

/-! ## Orchestrator (AI enhancer) -/

/-- The meta fields every flow passes to `withMeta`. -/
structure MetaPatch where
  provider : String
  model : String
  fallbackUsed : Bool
  fallbackReason : Option String
  deriving Repr, DecidableEq

/-- `withMeta(report, {...})`: spread the existing `analysisMeta`, override the
patched fields, and stamp `stabilityMode` and `scoreWeights`. -/
def withMeta (w : ℚ) (report : Report) (patch : MetaPatch) : Report :=
  { report with
    analysisMeta :=
      { report.analysisMeta with
        provider := patch.provider
        model := patch.model
        fallbackUsed := patch.fallbackUsed
        fallbackReason := patch.fallbackReason
        stabilityMode := some "anchored"
        scoreWeights := some { localW := w, ai := 1 - w } } }

/-- `HYBRID_MODES`. -/
def HYBRID_MODES : List String := ["hybrid", "both", "ensemble"]

/-- The resolved execution plan. -/
structure ExecutionPlan where
  mode : String
  providers : List String
  requested : String
  deriving Repr, DecidableEq

/-- `resolveExecutionPlan()`: `selectedRaw` models `process.env.AI_PROVIDER ||
'auto'`, the two flags model the presence of the two credentials. -/
def resolveExecutionPlan (selectedRaw : String) (hasGemini hasGroq : Bool) :
    ExecutionPlan :=
  let selected := selectedRaw.toLower.trim
  let available :=
    (if hasGemini then ["gemini"] else []) ++ (if hasGroq then ["groq"] else [])
  if selected ∈ HYBRID_MODES then
    if hasGemini ∧ hasGroq then
      { mode := "hybrid", providers := ["gemini", "groq"], requested := selected }
    else { mode := "sequential", providers := available, requested := selected }
  else if selected = "gemini" then
    { mode := "sequential", providers := if hasGemini then ["gemini"] else [],
      requested := selected }
  else if selected = "groq" then
    { mode := "sequential", providers := if hasGroq then ["groq"] else [],
      requested := selected }
  else { mode := "sequential", providers := available, requested := selected }

/-- A settled provider attempt: `requestCompletion` followed by
`parseJsonResponse`, either a parsed candidate with its model tag or the
thrown error's message. -/
structure CompletionSuccess where
  model : String
  parsed : Candidate
  deriving Repr, DecidableEq

/-- Outcome of one provider attempt. -/
abbrev Outcome := Except String CompletionSuccess

/-- `extractErrorMessage(error)` for the string errors of this model (an empty
message is falsy in JS and yields `null`). -/
def extractErrorMessage (error : String) : Option String :=
  if error = "" then none else some error

/-- `buildFailureReason(failures, prefix)`. -/
def buildFailureReason (failures : List String) (pre : String) : Option String :=
  if failures.isEmpty then none
  else
    let details := (failures.map extractErrorMessage).filterMap id
    if details.isEmpty then some pre
    else some (pre ++ " " ++ String.intercalate " | " details)

/-- The provider loop of `runSequentialFlow`, with `lastError` explicit.  The
`degradedHybridReason` check reads the resolved plan (`providers.length` in the
source is the length of `execution.providers`, which is also the list being
iterated). -/
def runSequentialFlowAux (w : ℚ) (base : Report) (execution : ExecutionPlan) :
    List (String × Outcome) → Option String → Report
  | [], lastError =>
    withMeta w base
      { provider := "local-heuristics", model := "rule-engine-v2",
        fallbackUsed := true,
        fallbackReason :=
          some ((lastError.bind extractErrorMessage).getD
            "AI generation failed on all configured providers.") }
  | (_, Except.error e) :: rest, _ =>
    runSequentialFlowAux w base execution rest (some e)
  | (provider, Except.ok completion) :: _, _ =>
    let merged := mergeReports w base completion.parsed
    let degraded : Bool :=
      HYBRID_MODES.contains execution.requested && (execution.providers.length == 1)
    withMeta w merged
      { provider := provider, model := completion.model, fallbackUsed := degraded,
        fallbackReason :=
          if degraded then
            some "Hybrid mode requested, but only one provider key is configured."
          else none }

/-- `runSequentialFlow(providers, prompt, baselineReport, execution)`, modelled
from the point where each provider attempt is a settled `Outcome`. -/
def runSequentialFlow (w : ℚ) (attempts : List (String × Outcome)) (base : Report)
    (execution : ExecutionPlan) : Report :=
  runSequentialFlowAux w base execution attempts none

/-- The `successes` list of `runHybridFlow`: the fulfilled attempts, in
provider order, as `{provider, model, parsed}` items. -/
def hybridSuccesses (attempts : List (String × Outcome)) : List SuccessItem :=
  attempts.filterMap (fun pr =>
    match pr.2 with
    | Except.ok c => some { provider := pr.1, model := c.model, parsed := c.parsed }
    | Except.error _ => none)

/-- The `failures` list of `runHybridFlow`: the rejection reasons, in provider
order. -/
def hybridFailures (attempts : List (String × Outcome)) : List String :=
  attempts.filterMap (fun pr =>
    match pr.2 with
    | Except.error e => some e
    | Except.ok _ => none)

/-- `runHybridFlow(providers, prompt, baselineReport)`, modelled from the point
where `Promise.allSettled` has delivered every attempt. -/
def runHybridFlow (w : ℚ) (attempts : List (String × Outcome)) (base : Report) :
    Report :=
  match hybridSuccesses attempts with
  | [] =>
    withMeta w base
      { provider := "local-heuristics", model := "rule-engine-v2",
        fallbackUsed := true,
        fallbackReason :=
          buildFailureReason (hybridFailures attempts)
            "Hybrid AI failed on all providers." }
  | [s] =>
    withMeta w (mergeReports w base s.parsed)
      { provider := "hybrid-partial:" ++ s.provider, model := s.model,
        fallbackUsed := true,
        fallbackReason :=
          buildFailureReason (hybridFailures attempts)
            "One provider failed during hybrid analysis." }
  | _ :: _ :: _ =>
    withMeta w (mergeHybridReports w base (hybridSuccesses attempts))
      { provider :=
          "hybrid:" ++ String.intercalate "+" ((hybridSuccesses attempts).map (·.provider))
        model := String.intercalate " + " ((hybridSuccesses attempts).map (·.model))
        fallbackUsed := !(hybridFailures attempts).isEmpty
        fallbackReason :=
          if (hybridFailures attempts).isEmpty then none
          else
            buildFailureReason (hybridFailures attempts)
              "Hybrid completed with partial provider failures." }

/-- `enrichReportWithAI(snapshot, baselineReport)`: resolve the plan, then run
one flow.  `attempt p` is the settled outcome of the single call this request
would make to provider `p` (prompt construction and transport are outside the
embedding). -/
def enrichReportWithAI (w : ℚ) (selectedRaw : String) (hasGemini hasGroq : Bool)
    (attempt : String → Outcome) (base : Report) : Report :=
  let execution := resolveExecutionPlan selectedRaw hasGemini hasGroq
  if execution.providers.isEmpty then
    withMeta w base
      { provider := "local-heuristics", model := "rule-engine-v2",
        fallbackUsed := true,
        fallbackReason :=
          some "No AI provider key configured. Set GEMINI_API_KEY or GROQ_API_KEY." }
  else if execution.mode = "hybrid" ∧ execution.providers.length > 1 then
    runHybridFlow w (execution.providers.map (fun p => (p, attempt p))) base
  else
    runSequentialFlow w (execution.providers.map (fun p => (p, attempt p))) base execution

/-! ## Spec-side definitions (formalizing the claims' wording) -/

/-- The spec's overall-score formula: clamped weighted sum
`0.30/0.25/0.25/0.10/0.10` of the five category scores. -/
def overallFormula (c : Categories) : ℤ :=
  clamp
    (mathRound ((c.maintainability : ℚ) * (3/10) + (c.reliability : ℚ) * (1/4) +
      (c.security : ℚ) * (1/4) + (c.documentation : ℚ) * (1/10) +
      (c.architecture : ℚ) * (1/10)))
    10 99

/-- Every category score lies in `[0, 100]`. -/
def catInRange (c : Categories) : Prop :=
  0 ≤ c.maintainability ∧ c.maintainability ≤ 100 ∧
  0 ≤ c.reliability ∧ c.reliability ≤ 100 ∧
  0 ≤ c.security ∧ c.security ≤ 100 ∧
  0 ≤ c.documentation ∧ c.documentation ≤ 100 ∧
  0 ≤ c.architecture ∧ c.architecture ≤ 100

/-- The bounds claim P2 asserts of every report:
overall in `[10,99]`, categories in `[0,100]`, risk in `[5,100]`, list caps. -/
def claimedBounds (r : Report) : Prop :=
  10 ≤ r.overallScore ∧ r.overallScore ≤ 99 ∧ catInRange r.categories ∧
  5 ≤ r.risk.score ∧ r.risk.score ≤ 100 ∧
  r.heatmap.length ≤ 20 ∧ r.topIssues.length ≤ 12 ∧ r.priorityFixes.length ≤ 6

/-- The bounds that actually hold on the merge paths: as `claimedBounds`, but
the risk floor is `0` (blending clamps to `[0,100]`). -/
def mergedBounds (r : Report) : Prop :=
  10 ≤ r.overallScore ∧ r.overallScore ≤ 99 ∧ catInRange r.categories ∧
  0 ≤ r.risk.score ∧ r.risk.score ≤ 100 ∧
  r.heatmap.length ≤ 20 ∧ r.topIssues.length ≤ 12 ∧ r.priorityFixes.length ≤ 6

/-- Spec-side majority vote: the first element of `votes` whose occurrence
count is maximal (first-seen wins ties). -/
def countMaxFirst (votes : List String) : Option String :=
  votes.find? (fun v => votes.all (fun u => decide (votes.count u ≤ votes.count v)))

/-- The result was produced by merging at least one successful candidate into
the baseline (either single-candidate or consensus merge), then stamping meta. -/
def mergedFromCandidate (w : ℚ) (base r : Report) : Prop :=
  (∃ cand patch, r = withMeta w (mergeReports w base cand) patch) ∨
  (∃ cands patch, cands ≠ [] ∧ r = withMeta w (mergeHybridReports w base cands) patch)

/-! ## Concrete inputs used by witnesses and counterexamples -/

/-- A file analysis as `analyzeFile` produces for a ten-line all-comment file
(comment ratio 1, no complexity signals, no issues). -/
def commentOnlyAnalysis (p : String) : FileAnalysis :=
  { path := p, loc := 10, commentRatio := 1, complexityScore := 1, issues := [] }

/-- Six comment-only files spread over six top-level directories. -/
def sixAnalyses : List FileAnalysis :=
  [commentOnlyAnalysis "alpha/a.js", commentOnlyAnalysis "beta/b.js",
   commentOnlyAnalysis "gamma/c.js", commentOnlyAnalysis "delta/d.js",
   commentOnlyAnalysis "epsilon/e.js", commentOnlyAnalysis "zeta/f.js"]

/-- The baseline the local analyzer produces for `sixAnalyses` (its risk score
is the floor value 5). -/
def demoLocalBase : Report :=
  buildLocalReport "2024-01-01T00:00:00.000Z" "demo/project" "sampling:6/6" sixAnalyses

/-- A candidate whose only content is `{"risk":{"score":0}}`. -/
def riskZeroCand : Candidate := { risk := { score := some 0 } }

/-- A generic well-formed baseline report used by witnesses. -/
def demoReport : Report :=
  { reportVersion := "2.0"
    generatedAt := "2024-01-01T00:00:00.000Z"
    project := "demo/project"
    overallScore := 70
    grade := "C"
    confidence := 70
    summary := "Baseline summary."
    categories :=
      { maintainability := 70, reliability := 80, security := 60,
        documentation := 75, architecture := 65 }
    risk := { level := "Moderate", score := 40, dominantRisks := ["Risk A"] }
    heatmap := []
    topIssues := []
    priorityFixes := []
    quickWins := ["Win A"]
    strengths := ["Strength A"]
    nextMilestones := ["Milestone A"]
    analysisMeta :=
      { provider := "local-heuristics", model := "rule-engine-v2",
        filesAnalyzed := 3, estimatedLoc := 240, fallbackUsed := false,
        fallbackReason := none, sampling := "sampling:3/3",
        stabilityMode := none, scoreWeights := none } }

/-- A candidate that reports security 90 (used for the consensus example). -/
def securityNinetyCand : Candidate := { categories := { security := some 90 } }

/-- Two fulfilled hybrid attempts both reporting security 90. -/
def securityNinetyItems : List SuccessItem :=
  [{ provider := "gemini", model := "gemini-3-flash-preview",
     parsed := securityNinetyCand },
   { provider := "groq", model := "llama-3.3-70b-versatile",
     parsed := securityNinetyCand }]

/-- A candidate reporting the out-of-range security value 200. -/
def securityHugeCand : Candidate := { categories := { security := some 200 } }

/-- The same out-of-range opinion as a fulfilled hybrid attempt. -/
def securityHugeItem : SuccessItem :=
  { provider := "groq", model := "llama-3.3-70b-versatile", parsed := securityHugeCand }

/-- Candidate voting risk level Low. -/
def lowVoteCand : Candidate :=
  { risk := { score := some 100, level := some "Low" } }

/-- Candidate voting risk level Critical. -/
def criticalVoteCand : Candidate :=
  { risk := { score := some 100, level := some "Critical" } }

/-- A tied two-candidate vote: one Low, one Critical, both pushing the blended
risk score high. -/
def tiedVoteItems : List SuccessItem :=
  [{ provider := "gemini", model := "m1", parsed := lowVoteCand },
   { provider := "groq", model := "m2", parsed := criticalVoteCand }]

/-- An attempt function for witnesses: gemini succeeds with the
`securityNinetyCand` payload, groq fails. -/
def demoAttempt : String → Outcome := fun p =>
  if p = "gemini" then
    Except.ok { model := "gemini-3-flash-preview", parsed := securityNinetyCand }
  else Except.error "boom"

/-- Settled hybrid attempts in which only groq succeeds. -/
def demoHybridAttempts : List (String × Outcome) :=
  [("gemini", Except.error "Gemini request failed (500): upstream error"),
   ("groq", Except.ok { model := "llama-3.3-70b-versatile", parsed := securityNinetyCand })]

/-- The single fulfilled item of `demoHybridAttempts`. -/
def demoGroqItem : SuccessItem :=
  { provider := "groq", model := "llama-3.3-70b-versatile", parsed := securityNinetyCand }

/-! ## Shared helper lemmas -/

theorem clamp_lower (value lo hi : ℤ) : lo ≤ clamp value lo hi :=
  le_max_left _ _

theorem clamp_upper (value lo hi : ℤ) (h : lo ≤ hi) : clamp value lo hi ≤ hi :=
  max_le h (min_le_left _ _)

@[simp] theorem withMeta_overallScore (w : ℚ) (r : Report) (patch : MetaPatch) :
    (withMeta w r patch).overallScore = r.overallScore := rfl

@[simp] theorem withMeta_categories (w : ℚ) (r : Report) (patch : MetaPatch) :
    (withMeta w r patch).categories = r.categories := rfl

@[simp] theorem withMeta_risk (w : ℚ) (r : Report) (patch : MetaPatch) :
    (withMeta w r patch).risk = r.risk := rfl

@[simp] theorem withMeta_heatmap (w : ℚ) (r : Report) (patch : MetaPatch) :
    (withMeta w r patch).heatmap = r.heatmap := rfl

@[simp] theorem withMeta_topIssues (w : ℚ) (r : Report) (patch : MetaPatch) :
    (withMeta w r patch).topIssues = r.topIssues := rfl

@[simp] theorem withMeta_priorityFixes (w : ℚ) (r : Report) (patch : MetaPatch) :
    (withMeta w r patch).priorityFixes = r.priorityFixes := rfl

@[simp] theorem withMeta_confidence (w : ℚ) (r : Report) (patch : MetaPatch) :
    (withMeta w r patch).confidence = r.confidence := rfl

@[simp] theorem withMeta_project (w : ℚ) (r : Report) (patch : MetaPatch) :
    (withMeta w r patch).project = r.project := rfl

@[simp] theorem withMeta_generatedAt (w : ℚ) (r : Report) (patch : MetaPatch) :
    (withMeta w r patch).generatedAt = r.generatedAt := rfl

@[simp] theorem withMeta_filesAnalyzed (w : ℚ) (r : Report) (patch : MetaPatch) :
    (withMeta w r patch).analysisMeta.filesAnalyzed = r.analysisMeta.filesAnalyzed := rfl

@[simp] theorem withMeta_estimatedLoc (w : ℚ) (r : Report) (patch : MetaPatch) :
    (withMeta w r patch).analysisMeta.estimatedLoc = r.analysisMeta.estimatedLoc := rfl

@[simp] theorem withMeta_provider (w : ℚ) (r : Report) (patch : MetaPatch) :
    (withMeta w r patch).analysisMeta.provider = patch.provider := rfl

@[simp] theorem withMeta_fallbackUsed (w : ℚ) (r : Report) (patch : MetaPatch) :
    (withMeta w r patch).analysisMeta.fallbackUsed = patch.fallbackUsed := rfl

@[simp] theorem withMeta_fallbackReason (w : ℚ) (r : Report) (patch : MetaPatch) :
    (withMeta w r patch).analysisMeta.fallbackReason = patch.fallbackReason := rfl

/-- The report-wide formula invariant P3 asserts. -/
def formulaInv (r : Report) : Prop :=
  r.overallScore = overallFormula r.categories

theorem formulaInv_withMeta (w : ℚ) (r : Report) (patch : MetaPatch)
    (h : formulaInv r) : formulaInv (withMeta w r patch) := h

theorem formulaInv_buildLocalReport (generatedAt project sampling : String)
    (analyses : List FileAnalysis) :
    formulaInv (buildLocalReport generatedAt project sampling analyses) := rfl

theorem formulaInv_mergeReports (w : ℚ) (base : Report) (candidate : Candidate) :
    formulaInv (mergeReports w base candidate) := rfl

theorem formulaInv_mergeHybridReports (w : ℚ) (base : Report)
    (candidates : List SuccessItem) :
    formulaInv (mergeHybridReports w base candidates) := rfl

theorem formulaInv_runSequentialFlowAux (w : ℚ) (base : Report)
    (execution : ExecutionPlan) (attempts : List (String × Outcome))
    (lastError : Option String) (h : formulaInv base) :
    formulaInv (runSequentialFlowAux w base execution attempts lastError) := by
  induction attempts generalizing lastError with
  | nil => exact formulaInv_withMeta _ _ _ h
  | cons head rest ih =>
    rcases head with ⟨p, o⟩
    cases o with
    | error e => exact ih _
    | ok completion =>
      exact formulaInv_withMeta _ _ _ (formulaInv_mergeReports _ _ _)

theorem formulaInv_runSequentialFlow (w : ℚ) (attempts : List (String × Outcome))
    (base : Report) (execution : ExecutionPlan) (h : formulaInv base) :
    formulaInv (runSequentialFlow w attempts base execution) :=
  formulaInv_runSequentialFlowAux w base execution attempts none h

theorem formulaInv_runHybridFlow (w : ℚ) (attempts : List (String × Outcome))
    (base : Report) (h : formulaInv base) :
    formulaInv (runHybridFlow w attempts base) := by
  unfold runHybridFlow
  split
  · exact formulaInv_withMeta _ _ _ h
  · exact formulaInv_withMeta _ _ _ (formulaInv_mergeReports _ _ _)
  · exact formulaInv_withMeta _ _ _ (formulaInv_mergeHybridReports _ _ _)

theorem formulaInv_enrichReportWithAI (w : ℚ) (selectedRaw : String)
    (hasGemini hasGroq : Bool) (attempt : String → Outcome) (base : Report)
    (h : formulaInv base) :
    formulaInv (enrichReportWithAI w selectedRaw hasGemini hasGroq attempt base) := by
  unfold enrichReportWithAI
  dsimp only
  split
  · exact formulaInv_withMeta _ _ _ h
  · split
    · exact formulaInv_runHybridFlow _ _ _ h
    · exact formulaInv_runSequentialFlow _ _ _ _ h

theorem clamp_range (v lo hi a b : ℤ) (h1 : a ≤ lo) (h2 : hi ≤ b) (h3 : lo ≤ hi) :
    a ≤ clamp v lo hi ∧ clamp v lo hi ≤ b :=
  ⟨le_trans h1 (clamp_lower v lo hi), le_trans (clamp_upper v lo hi h3) h2⟩

theorem scoreArchitecture_range (paths : List String) (largeFiles : ℕ) :
    0 ≤ scoreArchitecture paths largeFiles ∧ scoreArchitecture paths largeFiles ≤ 100 := by
  unfold scoreArchitecture
  split
  · norm_num
  · exact clamp_range _ 25 96 0 100 (by norm_num) (by norm_num) (by norm_num)

theorem blendOpt_range (w : ℚ) (b : ℤ) (c : Option ℚ) (hb0 : 0 ≤ b) (hb1 : b ≤ 100) :
    0 ≤ blendOpt w b c ∧ blendOpt w b c ≤ 100 := by
  cases c with
  | none => exact ⟨hb0, hb1⟩
  | some v => exact clamp_range _ 0 100 0 100 le_rfl le_rfl (by norm_num)

theorem hybridBlend_range (w : ℚ) (b : ℤ) (raw : List (Option ℚ)) (hb0 : 0 ≤ b)
    (hb1 : b ≤ 100) :
    0 ≤ hybridBlend w b raw ∧ hybridBlend w b raw ≤ 100 := by
  unfold hybridBlend
  dsimp only
  split
  · exact ⟨hb0, hb1⟩
  · exact clamp_range _ 0 100 0 100 le_rfl le_rfl (by norm_num)

theorem take_map_length_le (f : α → β) (l : List α) (n : ℕ) :
    ((l.take n).map f).length ≤ n := by
  simp only [List.length_map, List.length_take]
  omega

theorem normalizeIssues_length_le (issues : List (Option CandIssue))
    (fallback : List Issue) (h : fallback.length ≤ 12) :
    (normalizeIssues issues fallback).length ≤ 12 := by
  unfold normalizeIssues
  split
  · exact h
  · dsimp only
    split
    · exact h
    · simp only [List.length_take]
      omega

theorem normalizeFixes_length_le (fixes : List (Option CandFix))
    (fallback : List Fix) (h : fallback.length ≤ 6) :
    (normalizeFixes fixes fallback).length ≤ 6 := by
  unfold normalizeFixes
  split
  · exact h
  · dsimp only
    split
    · exact h
    · simp only [List.length_take]
      omega

theorem mergeIssueSets_length_le (base : Report) (candidates : List SuccessItem)
    (h : base.topIssues.length ≤ 12) :
    (mergeIssueSets base candidates).length ≤ 12 := by
  unfold mergeIssueSets
  dsimp only
  split
  · exact h
  · simp only [List.length_take]
    omega

theorem mergeFixSets_length_le (base : Report) (candidates : List SuccessItem)
    (h : base.priorityFixes.length ≤ 6) :
    (mergeFixSets base candidates).length ≤ 6 := by
  unfold mergeFixSets
  dsimp only
  split
  · exact h
  · simp only [List.length_take]
    omega

theorem claimedBounds_to_mergedBounds (r : Report) (h : claimedBounds r) :
    mergedBounds r := by
  obtain ⟨h1, h2, h3, h4, h5, h6, h7, h8⟩ := h
  exact ⟨h1, h2, h3, by linarith, h5, h6, h7, h8⟩

theorem buildLocalReport_claimedBounds (generatedAt project sampling : String)
    (analyses : List FileAnalysis) :
    claimedBounds (buildLocalReport generatedAt project sampling analyses) := by
  refine ⟨clamp_lower _ _ _, clamp_upper _ _ _ (by norm_num),
    ⟨(clamp_range _ 20 98 0 100 (by norm_num) (by norm_num) (by norm_num)).1,
     (clamp_range _ 20 98 0 100 (by norm_num) (by norm_num) (by norm_num)).2,
     (clamp_range _ 15 97 0 100 (by norm_num) (by norm_num) (by norm_num)).1,
     (clamp_range _ 15 97 0 100 (by norm_num) (by norm_num) (by norm_num)).2,
     (clamp_range _ 10 98 0 100 (by norm_num) (by norm_num) (by norm_num)).1,
     (clamp_range _ 10 98 0 100 (by norm_num) (by norm_num) (by norm_num)).2,
     (clamp_range _ 20 96 0 100 (by norm_num) (by norm_num) (by norm_num)).1,
     (clamp_range _ 20 96 0 100 (by norm_num) (by norm_num) (by norm_num)).2,
     (scoreArchitecture_range _ _).1, (scoreArchitecture_range _ _).2⟩,
    clamp_lower _ _ _, clamp_upper _ _ _ (by norm_num),
    take_map_length_le _ _ _, take_map_length_le _ _ _, take_map_length_le _ _ _⟩

theorem mergeReports_mergedBounds (w : ℚ) (base : Report) (candidate : Candidate)
    (h : claimedBounds base) : mergedBounds (mergeReports w base candidate) := by
  obtain ⟨h1, h2, ⟨m0, m1, r0, r1, s0, s1, d0, d1, a0, a1⟩, h4, h5, h6, h7, h8⟩ := h
  refine ⟨clamp_lower _ _ _, clamp_upper _ _ _ (by norm_num),
    ⟨(blendOpt_range _ _ _ m0 m1).1, (blendOpt_range _ _ _ m0 m1).2,
     (blendOpt_range _ _ _ r0 r1).1, (blendOpt_range _ _ _ r0 r1).2,
     (blendOpt_range _ _ _ s0 s1).1, (blendOpt_range _ _ _ s0 s1).2,
     (blendOpt_range _ _ _ d0 d1).1, (blendOpt_range _ _ _ d0 d1).2,
     (blendOpt_range _ _ _ a0 a1).1, (blendOpt_range _ _ _ a0 a1).2⟩,
    (blendOpt_range _ _ _ (by linarith) h5).1,
    (blendOpt_range _ _ _ (by linarith) h5).2,
    h6, normalizeIssues_length_le _ _ h7, normalizeFixes_length_le _ _ h8⟩

theorem mergeHybridReports_mergedBounds (w : ℚ) (base : Report)
    (candidates : List SuccessItem) (h : claimedBounds base) :
    mergedBounds (mergeHybridReports w base candidates) := by
  obtain ⟨h1, h2, ⟨m0, m1, r0, r1, s0, s1, d0, d1, a0, a1⟩, h4, h5, h6, h7, h8⟩ := h
  refine ⟨clamp_lower _ _ _, clamp_upper _ _ _ (by norm_num),
    ⟨(hybridBlend_range _ _ _ m0 m1).1, (hybridBlend_range _ _ _ m0 m1).2,
     (hybridBlend_range _ _ _ r0 r1).1, (hybridBlend_range _ _ _ r0 r1).2,
     (hybridBlend_range _ _ _ s0 s1).1, (hybridBlend_range _ _ _ s0 s1).2,
     (hybridBlend_range _ _ _ d0 d1).1, (hybridBlend_range _ _ _ d0 d1).2,
     (hybridBlend_range _ _ _ a0 a1).1, (hybridBlend_range _ _ _ a0 a1).2⟩,
    (hybridBlend_range _ _ _ (by linarith) h5).1,
    (hybridBlend_range _ _ _ (by linarith) h5).2,
    h6, mergeIssueSets_length_le _ _ h7, mergeFixSets_length_le _ _ h8⟩

theorem mergedBounds_withMeta (w : ℚ) (r : Report) (patch : MetaPatch)
    (h : mergedBounds r) : mergedBounds (withMeta w r patch) := h

theorem runSequentialFlowAux_mergedBounds (w : ℚ) (base : Report)
    (execution : ExecutionPlan) (attempts : List (String × Outcome))
    (lastError : Option String) (h : claimedBounds base) :
    mergedBounds (runSequentialFlowAux w base execution attempts lastError) := by
  induction attempts generalizing lastError with
  | nil =>
    exact mergedBounds_withMeta _ _ _ (claimedBounds_to_mergedBounds _ h)
  | cons head rest ih =>
    rcases head with ⟨p, o⟩
    cases o with
    | error e => exact ih _
    | ok completion =>
      exact mergedBounds_withMeta _ _ _ (mergeReports_mergedBounds _ _ _ h)

theorem runHybridFlow_mergedBounds (w : ℚ) (attempts : List (String × Outcome))
    (base : Report) (h : claimedBounds base) :
    mergedBounds (runHybridFlow w attempts base) := by
  unfold runHybridFlow
  split
  · exact mergedBounds_withMeta _ _ _ (claimedBounds_to_mergedBounds _ h)
  · exact mergedBounds_withMeta _ _ _ (mergeReports_mergedBounds _ _ _ h)
  · exact mergedBounds_withMeta _ _ _ (mergeHybridReports_mergedBounds _ _ _ h)

theorem enrichReportWithAI_mergedBounds (w : ℚ) (selectedRaw : String)
    (hasGemini hasGroq : Bool) (attempt : String → Outcome) (base : Report)
    (h : claimedBounds base) :
    mergedBounds (enrichReportWithAI w selectedRaw hasGemini hasGroq attempt base) := by
  unfold enrichReportWithAI
  dsimp only
  split
  · exact mergedBounds_withMeta _ _ _ (claimedBounds_to_mergedBounds _ h)
  · split
    · exact runHybridFlow_mergedBounds _ _ _ h
    · exact runSequentialFlowAux_mergedBounds _ _ _ _ _ h

theorem resolveExecutionPlan_noCredentials (selectedRaw : String) :
    (resolveExecutionPlan selectedRaw false false).providers = [] := by
  unfold resolveExecutionPlan
  split_ifs <;> simp_all
  split_ifs <;> rfl

theorem exists_ok_of_hybridSuccesses_ne_nil (attempts : List (String × Outcome))
    (h : hybridSuccesses attempts ≠ []) :
    ∃ p c, (p, Except.ok c) ∈ attempts := by
  induction attempts with
  | nil => exact absurd rfl h
  | cons head rest ih =>
    rcases head with ⟨q, o⟩
    cases o with
    | ok c => exact ⟨q, c, List.mem_cons_self _ _⟩
    | error e =>
      have hrw : hybridSuccesses ((q, Except.error e) :: rest) = hybridSuccesses rest := by
        simp [hybridSuccesses]
      rw [hrw] at h
      obtain ⟨p, c, hm⟩ := ih h
      exact ⟨p, c, List.mem_cons_of_mem _ hm⟩

theorem attempt_ok_of_mem_map (providers : List String)
    (attempt : String → Outcome) (p : String) (c : CompletionSuccess)
    (h : (p, Except.ok c) ∈ providers.map (fun q => (q, attempt q))) :
    attempt p = Except.ok c := by
  obtain ⟨q, _, heq⟩ := List.mem_map.mp h
  injection heq with h1 h2
  subst h1
  exact h2

theorem runSequentialFlowAux_fallbackFalse (w : ℚ) (base : Report)
    (execution : ExecutionPlan) (attempts : List (String × Outcome))
    (lastError : Option String)
    (h : (runSequentialFlowAux w base execution attempts lastError).analysisMeta.fallbackUsed
      = false) :
    ∃ p c patch, (p, Except.ok c) ∈ attempts ∧
      runSequentialFlowAux w base execution attempts lastError =
        withMeta w (mergeReports w base c.parsed) patch := by
  induction attempts generalizing lastError with
  | nil => simp [runSequentialFlowAux] at h
  | cons head rest ih =>
    rcases head with ⟨q, o⟩
    cases o with
    | error e =>
      obtain ⟨p, c, patch, hm, heq⟩ := ih (some e) h
      exact ⟨p, c, patch, List.mem_cons_of_mem _ hm, heq⟩
    | ok comp =>
      exact ⟨q, comp,
        { provider := q, model := comp.model,
          fallbackUsed :=
            HYBRID_MODES.contains execution.requested &&
              (execution.providers.length == 1),
          fallbackReason :=
            if HYBRID_MODES.contains execution.requested &&
                (execution.providers.length == 1) then
              some "Hybrid mode requested, but only one provider key is configured."
            else none },
        List.mem_cons_self _ _, rfl⟩

theorem runHybridFlow_fallbackFalse (w : ℚ) (attempts : List (String × Outcome))
    (base : Report)
    (h : (runHybridFlow w attempts base).analysisMeta.fallbackUsed = false) :
    (∃ p c, (p, Except.ok c) ∈ attempts) ∧
      mergedFromCandidate w base (runHybridFlow w attempts base) := by
  rcases hs : hybridSuccesses attempts with _ | ⟨s, _ | ⟨t, rest⟩⟩
  · have he : runHybridFlow w attempts base =
        withMeta w base
          { provider := "local-heuristics", model := "rule-engine-v2",
            fallbackUsed := true,
            fallbackReason :=
              buildFailureReason (hybridFailures attempts)
                "Hybrid AI failed on all providers." } := by
      unfold runHybridFlow
      rw [hs]
    rw [he] at h
    simp at h
  · have he : runHybridFlow w attempts base =
        withMeta w (mergeReports w base s.parsed)
          { provider := "hybrid-partial:" ++ s.provider, model := s.model,
            fallbackUsed := true,
            fallbackReason :=
              buildFailureReason (hybridFailures attempts)
                "One provider failed during hybrid analysis." } := by
      unfold runHybridFlow
      rw [hs]
    rw [he] at h
    simp at h
  · have hne : hybridSuccesses attempts ≠ [] := by rw [hs]; simp
    have he : runHybridFlow w attempts base =
        withMeta w (mergeHybridReports w base (hybridSuccesses attempts))
          { provider :=
              "hybrid:" ++
                String.intercalate "+" ((hybridSuccesses attempts).map (·.provider)),
            model := String.intercalate " + " ((hybridSuccesses attempts).map (·.model)),
            fallbackUsed := !(hybridFailures attempts).isEmpty,
            fallbackReason :=
              if (hybridFailures attempts).isEmpty then none
              else
                buildFailureReason (hybridFailures attempts)
                  "Hybrid completed with partial provider failures." } := by
      unfold runHybridFlow
      rw [hs]
    refine ⟨exists_ok_of_hybridSuccesses_ne_nil attempts hne, Or.inr ?_⟩
    exact ⟨hybridSuccesses attempts, _, hne, he⟩

theorem mathRound_intCast (n : ℤ) : mathRound (n : ℚ) = n := by
  unfold mathRound
  rw [Int.floor_eq_iff]
  constructor
  · linarith
  · have h1 : ((n + 1 : ℤ) : ℚ) = (n : ℚ) + 1 := by push_cast; ring
    linarith [h1]

theorem filterMap_id_all_eq (v : ℚ) :
    ∀ (l : List (Option ℚ)), (∀ x ∈ l, x = some v) →
      l.filterMap id = l.map (fun _ => v)
  | [], _ => rfl
  | x :: xs, h => by
    have hx := h x (List.mem_cons_self _ _)
    subst hx
    rw [List.map_cons]
    simpa using filterMap_id_all_eq v xs (fun y hy => h y (List.mem_cons_of_mem _ hy))

theorem sum_all_eq (v : ℚ) :
    ∀ (l : List ℚ), (∀ x ∈ l, x = v) → l.sum = l.length * v
  | [], _ => by simp
  | x :: xs, h => by
    rw [List.sum_cons, sum_all_eq v xs (fun y hy => h y (List.mem_cons_of_mem _ hy)),
      h x (List.mem_cons_self _ _), List.length_cons]
    push_cast
    ring

theorem average_all_eq (l : List ℚ) (v : ℚ) (hne : l ≠ []) (hall : ∀ x ∈ l, x = v) :
    average l = v := by
  unfold average
  rw [if_neg (by simpa using hne)]
  rw [sum_all_eq v l hall]
  have hlen : (l.length : ℚ) ≠ 0 := by
    simpa using hne
  field_simp

/-- Common shape of a consensus category blend in which every candidate
supplies the same finite value. -/
theorem hybridBlend_all_eq (w : ℚ) (b : ℤ) (v : ℚ) (l : List (Option ℚ))
    (hne : l ≠ []) (hall : ∀ x ∈ l, x = some v) :
    hybridBlend w b l = blendScore w (b : ℚ) ((clamp (mathRound v) 0 100 : ℤ) : ℚ) := by
  have h1 : (l.filterMap id).map (fun x => clamp (mathRound x) 0 100) =
      l.map (fun _ => clamp (mathRound v) 0 100) := by
    rw [filterMap_id_all_eq v l hall, List.map_map]
    rfl
  have h2 : ((l.map (fun _ => clamp (mathRound v) 0 100)).map (fun z : ℤ => (z : ℚ))) =
      l.map (fun _ => ((clamp (mathRound v) 0 100 : ℤ) : ℚ)) := by
    rw [List.map_map]
    rfl
  have h3 : average (l.map (fun _ => ((clamp (mathRound v) 0 100 : ℤ) : ℚ))) =
      ((clamp (mathRound v) 0 100 : ℤ) : ℚ) :=
    average_all_eq _ _ (by simpa using hne) (by simp)
  have h4 : (l.map (fun _ => clamp (mathRound v) 0 100)).isEmpty = false := by
    simpa using hne
  unfold hybridBlend
  dsimp only
  rw [h1, h2, h3, h4, mathRound_intCast]
  rfl

/-! ### Characterizing `mostFrequent` (vote counting) -/

theorem mem_dedupeByAux_id (x : String) :
    ∀ (l seen : List String),
      (x ∈ dedupeByAux (fun s => s) l seen ↔ x ∈ l ∧ x ∉ seen)
  | [], seen => by simp [dedupeByAux]
  | v :: vs, seen => by
    unfold dedupeByAux
    by_cases hv : v ∈ seen
    · rw [if_pos hv, mem_dedupeByAux_id x vs seen]
      constructor
      · rintro ⟨h1, h2⟩
        exact ⟨List.mem_cons_of_mem _ h1, h2⟩
      · rintro ⟨h1, h2⟩
        rcases List.mem_cons.mp h1 with rfl | h1
        · exact absurd hv h2
        · exact ⟨h1, h2⟩
    · rw [if_neg hv]
      rw [List.mem_cons, mem_dedupeByAux_id x vs (v :: seen)]
      constructor
      · rintro (rfl | ⟨h1, h2⟩)
        · exact ⟨List.mem_cons_self _ _, hv⟩
        · exact ⟨List.mem_cons_of_mem _ h1,
            fun hc => h2 (List.mem_cons_of_mem _ hc)⟩
      · rintro ⟨h1, h2⟩
        rcases List.mem_cons.mp h1 with rfl | h1
        · exact Or.inl rfl
        · by_cases hx : x = v
          · exact Or.inl hx
          · exact Or.inr ⟨h1, fun hc => by
              rcases List.mem_cons.mp hc with h | h
              · exact hx h
              · exact h2 h⟩

theorem nodup_dedupeByAux_id :
    ∀ (l seen : List String), (dedupeByAux (fun s => s) l seen).Nodup
  | [], _ => List.nodup_nil
  | v :: vs, seen => by
    unfold dedupeByAux
    by_cases hv : v ∈ seen
    · rw [if_pos hv]
      exact nodup_dedupeByAux_id vs seen
    · rw [if_neg hv]
      refine List.Nodup.cons ?_ (nodup_dedupeByAux_id vs (v :: seen))
      intro hc
      exact ((mem_dedupeByAux_id v vs (v :: seen)).mp hc).2 (List.mem_cons_self _ _)

theorem dedupeByAux_id_append_singleton (v : String) :
    ∀ (l seen : List String),
      dedupeByAux (fun s => s) (l ++ [v]) seen =
        dedupeByAux (fun s => s) l seen ++
          (if v ∈ seen ∨ v ∈ l then [] else [v])
  | [], seen => by
    unfold dedupeByAux
    by_cases hv : v ∈ seen
    · simp [dedupeByAux, hv]
    · simp [dedupeByAux, hv]
  | x :: xs, seen => by
    show dedupeByAux (fun s => s) (x :: (xs ++ [v])) seen = _
    unfold dedupeByAux
    by_cases hx : x ∈ seen
    · rw [if_pos hx, if_pos hx, dedupeByAux_id_append_singleton v xs seen]
      congr 1
      by_cases hv : v ∈ seen ∨ v ∈ xs
      · rw [if_pos hv, if_pos]
        rcases hv with hv | hv
        · exact Or.inl hv
        · exact Or.inr (List.mem_cons_of_mem _ hv)
      · rw [if_neg hv, if_neg]
        rintro (h | h)
        · exact hv (Or.inl h)
        · rcases List.mem_cons.mp h with rfl | h
          · exact hv (Or.inl hx)
          · exact hv (Or.inr h)
    · rw [if_neg hx, if_neg hx, dedupeByAux_id_append_singleton v xs (x :: seen)]
      rw [List.cons_append]
      congr 1
      by_cases hv : v ∈ x :: seen ∨ v ∈ xs
      · rw [if_pos hv, if_pos]
        rcases hv with hv | hv
        · rcases List.mem_cons.mp hv with rfl | hv
          · exact Or.inr (List.mem_cons_self _ _)
          · exact Or.inl hv
        · exact Or.inr (List.mem_cons_of_mem _ hv)
      · rw [if_neg hv, if_neg]
        rintro (h | h)
        · exact hv (Or.inl (List.mem_cons_of_mem _ h))
        · rcases List.mem_cons.mp h with rfl | h
          · exact hv (Or.inl (List.mem_cons_self _ _))
          · exact hv (Or.inr h)

theorem mem_dedupeBy_id (x : String) (l : List String) :
    x ∈ dedupeBy l (fun s => s) ↔ x ∈ l := by
  unfold dedupeBy
  rw [mem_dedupeByAux_id]
  simp

theorem nodup_dedupeBy_id (l : List String) :
    (dedupeBy l (fun s => s)).Nodup :=
  nodup_dedupeByAux_id l []

theorem dedupeBy_id_append_singleton (l : List String) (v : String) :
    dedupeBy (l ++ [v]) (fun s => s) =
      dedupeBy l (fun s => s) ++ (if v ∈ l then [] else [v]) := by
  unfold dedupeBy
  rw [dedupeByAux_id_append_singleton]
  congr 1
  by_cases hv : v ∈ l
  · rw [if_pos (Or.inr hv), if_pos hv]
  · rw [if_neg _, if_neg hv]
    rintro (h | h)
    · simp at h
    · exact hv h

theorem bumpCounter_mem (cnt : String → ℕ) (v : String) :
    ∀ (ks : List String), v ∈ ks → ks.Nodup →
      bumpCounter (ks.map (fun k => (k, cnt k))) v =
        ks.map (fun k => (k, if k = v then cnt k + 1 else cnt k))
  | [], hv, _ => absurd hv (List.not_mem_nil v)
  | k :: ks, hv, hnodup => by
    rw [List.map_cons, List.map_cons]
    unfold bumpCounter
    by_cases hk : k = v
    · rw [if_pos hk, if_pos hk]
      congr 1
      apply List.map_congr_left
      intro x hx
      have hxv : x ≠ v := by
        intro hxv
        exact (List.nodup_cons.mp hnodup).1 (by rw [hk, ← hxv]; exact hx)
      rw [if_neg hxv]
    · rw [if_neg hk, if_neg hk]
      congr 1
      have hv' : v ∈ ks := by
        rcases List.mem_cons.mp hv with rfl | hv'
        · exact absurd rfl hk
        · exact hv'
      exact bumpCounter_mem cnt v ks hv' (List.nodup_cons.mp hnodup).2

theorem bumpCounter_not_mem (cnt : String → ℕ) (v : String) :
    ∀ (ks : List String), v ∉ ks →
      bumpCounter (ks.map (fun k => (k, cnt k))) v =
        ks.map (fun k => (k, cnt k)) ++ [(v, 1)]
  | [], _ => rfl
  | k :: ks, hv => by
    rw [List.map_cons]
    unfold bumpCounter
    have hk : k ≠ v := fun h => hv (h ▸ List.mem_cons_self _ _)
    rw [if_neg hk]
    rw [bumpCounter_not_mem cnt v ks (fun h => hv (List.mem_cons_of_mem _ h))]
    rfl

/-- Closed form of the vote counter: keys are the distinct values in
first-occurrence order, each mapped to its total occurrence count. -/
theorem buildCounter_closed (values : List String) :
    buildCounter values =
      (dedupeBy values (fun s => s)).map (fun k => (k, values.count k)) := by
  induction values using List.reverseRecOn with
  | nil => rfl
  | append_singleton vs v ih =>
    have hfold : buildCounter (vs ++ [v]) = bumpCounter (buildCounter vs) v := by
      unfold buildCounter
      rw [List.foldl_append]
      rfl
    rw [hfold, ih, dedupeBy_id_append_singleton]
    by_cases hv : v ∈ vs
    · rw [bumpCounter_mem (fun k => vs.count k) v _
        ((mem_dedupeBy_id v vs).mpr hv) (nodup_dedupeBy_id vs)]
      rw [if_pos hv, List.append_nil]
      apply List.map_congr_left
      intro k _
      rw [List.count_append]
      by_cases hk : k = v
      · rw [if_pos hk, hk]
        simp
      · rw [if_neg hk]
        have : [v].count k = 0 := by
          rw [List.count_eq_zero]
          simpa using fun h => hk h
        rw [this]
        simp
    · rw [bumpCounter_not_mem (fun k => vs.count k) v _
        (fun h => hv ((mem_dedupeBy_id v vs).mp h))]
      rw [if_neg hv, List.map_append]
      congr 1
      · apply List.map_congr_left
        intro k hk
        have hkv : k ≠ v := by
          intro h
          exact hv (h ▸ (mem_dedupeBy_id k vs).mp hk)
        rw [List.count_append]
        have : [v].count k = 0 := by
          rw [List.count_eq_zero]
          simpa using fun h => hkv h
        rw [this]
        simp
      · rw [List.map_singleton, List.count_append]
        have : vs.count v = 0 := List.count_eq_zero.mpr hv
        rw [this]
        simp

theorem find?_congr_mem (p q : α → Bool) :
    ∀ (l : List α), (∀ x ∈ l, p x = q x) → l.find? p = l.find? q
  | [], _ => rfl
  | x :: xs, h => by
    by_cases hq : q x = true
    · rw [List.find?_cons_of_pos _ (by rw [h x (List.mem_cons_self _ _)]; exact hq),
        List.find?_cons_of_pos _ hq]
    · rw [List.find?_cons_of_neg _ (by rw [h x (List.mem_cons_self _ _)]; exact hq),
        List.find?_cons_of_neg _ hq]
      exact find?_congr_mem p q xs (fun y hy => h y (List.mem_cons_of_mem _ hy))

theorem exists_max_entry :
    ∀ (l : List (String × ℕ)), l ≠ [] → ∃ e ∈ l, ∀ u ∈ l, u.2 ≤ e.2
  | [], h => absurd rfl h
  | [x], _ => ⟨x, List.mem_singleton_self x, by
      intro u hu
      rw [List.mem_singleton.mp hu]⟩
  | x :: y :: ys, _ => by
    obtain ⟨e, he, hmax⟩ := exists_max_entry (y :: ys) (by simp)
    by_cases hc : x.2 ≤ e.2
    · refine ⟨e, List.mem_cons_of_mem _ he, ?_⟩
      intro u hu
      rcases List.mem_cons.mp hu with rfl | hu
      · exact hc
      · exact hmax u hu
    · refine ⟨x, List.mem_cons_self _ _, ?_⟩
      intro u hu
      rcases List.mem_cons.mp hu with rfl | hu
      · exact le_rfl
      · exact le_trans (hmax u hu) (le_of_not_le hc)

theorem bool_eq_of_iff {a b : Bool} (h : (a = true) ↔ (b = true)) : a = b := by
  cases a <;> cases b <;> simp_all

/-- The winner scan returns the first entry whose count strictly exceeds the
initial maximum and is maximal among all entries; otherwise the initial
winner survives. -/
theorem winner_fold :
    ∀ (entries : List (String × ℕ)) (accW : Option String) (accM : ℤ),
      (entries.foldl winnerStep (accW, accM)).1 =
        match entries.find? (fun e => decide (accM < (e.2 : ℤ)) &&
            entries.all (fun u => decide (u.2 ≤ e.2))) with
        | some e => some e.1
        | none => accW := by
  intro entries
  induction entries with
  | nil => intro accW accM; rfl
  | cons e rest ih =>
    intro accW accM
    rw [List.foldl_cons]
    by_cases hgt : accM < (e.2 : ℤ)
    · have hstep : winnerStep (accW, accM) e = (some e.1, (e.2 : ℤ)) := by
        unfold winnerStep
        rw [if_pos hgt]
      rw [hstep, ih (some e.1) (e.2 : ℤ)]
      by_cases hall : rest.all (fun u => decide (u.2 ≤ e.2)) = true
      · have hPe : (fun x => decide (accM < (x.2 : ℤ)) &&
            (e :: rest).all (fun u => decide (u.2 ≤ x.2))) e = true := by
          simp only [List.all_cons, Bool.and_eq_true, decide_eq_true_eq]
          exact ⟨hgt, le_rfl, by simpa using hall⟩
        have hfind : List.find? (fun x => decide (accM < (x.2 : ℤ)) &&
            (e :: rest).all (fun u => decide (u.2 ≤ x.2))) (e :: rest) = some e :=
          List.find?_cons_of_pos rest hPe
        rw [hfind]
        have hnone : rest.find? (fun u => decide ((e.2 : ℤ) < (u.2 : ℤ)) &&
            rest.all (fun x => decide (x.2 ≤ u.2))) = none := by
          rw [List.find?_eq_none]
          intro u hu
          have hue : u.2 ≤ e.2 := by
            have := List.all_eq_true.mp hall u hu
            simpa using this
          simp only [Bool.and_eq_true, decide_eq_true_eq, not_and]
          intro hlt
          exact absurd hlt (by exact_mod_cast not_lt.mpr hue)
        rw [hnone]
      · have hex : ∃ m ∈ rest, e.2 < m.2 := by
          rw [List.all_eq_true] at hall
          push_neg at hall
          obtain ⟨m, hm, hmle⟩ := hall
          exact ⟨m, hm, by simpa using hmle⟩
        obtain ⟨m, hm, hme⟩ := hex
        have hPe : ¬ ((fun x => decide (accM < (x.2 : ℤ)) &&
            (e :: rest).all (fun u => decide (u.2 ≤ x.2))) e = true) := by
          simp only [List.all_cons, Bool.and_eq_true, decide_eq_true_eq,
            List.all_eq_true]
          rintro ⟨-, -, hforall⟩
          have := hforall m hm
          simp only [decide_eq_true_eq] at this
          omega
        have hfind : List.find? (fun x => decide (accM < (x.2 : ℤ)) &&
            (e :: rest).all (fun u => decide (u.2 ≤ x.2))) (e :: rest) =
            List.find? (fun x => decide (accM < (x.2 : ℤ)) &&
              (e :: rest).all (fun u => decide (u.2 ≤ x.2))) rest :=
          List.find?_cons_of_neg rest hPe
        rw [hfind]
        have hpq : ∀ u ∈ rest,
            (fun u => decide ((e.2 : ℤ) < (u.2 : ℤ)) &&
              rest.all (fun x => decide (x.2 ≤ u.2))) u =
            (fun x => decide (accM < (x.2 : ℤ)) &&
              (e :: rest).all (fun u => decide (u.2 ≤ x.2))) u := by
          intro u hu
          apply bool_eq_of_iff
          simp only [List.all_cons, Bool.and_eq_true, decide_eq_true_eq,
            List.all_eq_true]
          constructor
          · rintro ⟨h1, h2⟩
            refine ⟨lt_trans hgt h1, ?_, h2⟩
            exact_mod_cast le_of_lt h1
          · rintro ⟨h1, h2, h3⟩
            refine ⟨?_, h3⟩
            exact_mod_cast lt_of_lt_of_le hme (h3 m hm)
        rw [find?_congr_mem _ _ rest hpq]
        have hrne : rest ≠ [] := List.ne_nil_of_mem hm
        obtain ⟨mx, hmx, hmax⟩ := exists_max_entry rest hrne
        have hPmx : (fun x => decide (accM < (x.2 : ℤ)) &&
            (e :: rest).all (fun u => decide (u.2 ≤ x.2))) mx = true := by
          simp only [List.all_cons, Bool.and_eq_true, decide_eq_true_eq,
            List.all_eq_true]
          have h1 : e.2 < mx.2 := lt_of_lt_of_le hme (hmax m hm)
          refine ⟨?_, le_of_lt h1, ?_⟩
          · calc accM < (e.2 : ℤ) := hgt
              _ < (mx.2 : ℤ) := by exact_mod_cast h1
          · intro x hx
            simpa using hmax x hx
        rcases hf : rest.find? (fun x => decide (accM < (x.2 : ℤ)) &&
            (e :: rest).all (fun u => decide (u.2 ≤ x.2))) with _ | u
        · exact absurd hPmx (List.find?_eq_none.mp hf mx hmx)
        · rw [hf]
    · have hstep : winnerStep (accW, accM) e = (accW, accM) := by
        unfold winnerStep
        rw [if_neg hgt]
      rw [hstep, ih accW accM]
      have hPe : ¬ ((fun x => decide (accM < (x.2 : ℤ)) &&
          (e :: rest).all (fun u => decide (u.2 ≤ x.2))) e = true) := by
        simp only [Bool.and_eq_true, decide_eq_true_eq]
        rintro ⟨h1, -⟩
        exact hgt h1
      have hfind : List.find? (fun x => decide (accM < (x.2 : ℤ)) &&
          (e :: rest).all (fun u => decide (u.2 ≤ x.2))) (e :: rest) =
          List.find? (fun x => decide (accM < (x.2 : ℤ)) &&
            (e :: rest).all (fun u => decide (u.2 ≤ x.2))) rest :=
        List.find?_cons_of_neg rest hPe
      rw [hfind]
      have hpq : ∀ u ∈ rest,
          (fun u => decide (accM < (u.2 : ℤ)) &&
            rest.all (fun x => decide (x.2 ≤ u.2))) u =
          (fun x => decide (accM < (x.2 : ℤ)) &&
            (e :: rest).all (fun u => decide (u.2 ≤ x.2))) u := by
        intro u hu
        apply bool_eq_of_iff
        simp only [List.all_cons, Bool.and_eq_true, decide_eq_true_eq,
          List.all_eq_true]
        constructor
        · rintro ⟨h1, h2⟩
          refine ⟨h1, ?_, h2⟩
          have he2 : (e.2 : ℤ) ≤ accM := not_lt.mp hgt
          exact_mod_cast le_of_lt (lt_of_le_of_lt he2 h1)
        · rintro ⟨h1, -, h3⟩
          exact ⟨h1, h3⟩
      rw [find?_congr_mem _ _ rest hpq]

theorem find?_dedupeByAux (p : String → Bool) :
    ∀ (l seen : List String), (∀ s ∈ seen, p s = false) →
      (dedupeByAux (fun s => s) l seen).find? p = l.find? p
  | [], _, _ => rfl
  | v :: vs, seen, hseen => by
    unfold dedupeByAux
    by_cases hv : v ∈ seen
    · rw [if_pos hv]
      have hpv : ¬ (p v = true) := by rw [hseen v hv]; simp
      rw [find?_dedupeByAux p vs seen hseen, List.find?_cons_of_neg vs hpv]
    · rw [if_neg hv]
      by_cases hpv : p v = true
      · rw [List.find?_cons_of_pos _ hpv, List.find?_cons_of_pos _ hpv]
      · rw [List.find?_cons_of_neg _ hpv, List.find?_cons_of_neg _ hpv]
        refine find?_dedupeByAux p vs (v :: seen) ?_
        intro s hs
        rcases List.mem_cons.mp hs with rfl | hs
        · exact Bool.eq_false_iff.mpr hpv
        · exact hseen s hs

theorem find?_dedupeBy_id (p : String → Bool) (l : List String) :
    (dedupeBy l (fun s => s)).find? p = l.find? p :=
  find?_dedupeByAux p l [] (by simp)

/-- `mostFrequent` computes the spec-side first-seen majority: the first vote
whose occurrence count is maximal. -/
theorem mostFrequent_eq_countMaxFirst (values : List String) (hne : values ≠ []) :
    mostFrequent values = countMaxFirst values := by
  unfold mostFrequent
  rw [if_neg (by simpa [List.isEmpty_iff] using hne)]
  rw [buildCounter_closed, winner_fold]
  rw [List.find?_map]
  have hpred : ∀ k ∈ dedupeBy values (fun s => s),
      ((fun e : String × ℕ => decide ((-1 : ℤ) < (e.2 : ℤ)) &&
          ((dedupeBy values (fun s => s)).map
            (fun k => (k, values.count k))).all (fun u => decide (u.2 ≤ e.2))) ∘
        (fun k => (k, values.count k))) k =
      (fun v => values.all (fun u => decide (values.count u ≤ values.count v))) k := by
    intro k _
    apply bool_eq_of_iff
    simp only [Function.comp_apply, Bool.and_eq_true, decide_eq_true_eq,
      List.all_map, List.all_eq_true, Function.comp_apply]
    constructor
    · rintro ⟨-, h2⟩
      intro u hu
      have := h2 ((fun k => (k, values.count k)) u)
        (List.mem_map_of_mem _ ((mem_dedupeBy_id u values).mpr hu))
      simpa using this
    · intro h
      refine ⟨lt_of_lt_of_le (by norm_num) (Int.natCast_nonneg _), ?_⟩
      intro u hu
      obtain ⟨k2, hk2, rfl⟩ := List.mem_map.mp hu
      simpa using h k2 ((mem_dedupeBy_id k2 values).mp hk2)
  rw [find?_congr_mem _ _ _ hpred]
  rw [find?_dedupeBy_id]
  unfold countMaxFirst
  rcases hf : values.find?
      (fun v => values.all (fun u => decide (values.count u ≤ values.count v))) with
    _ | v
  · rfl
  · rfl

theorem countMaxFirst_exists (votes : List String) (hne : votes ≠ []) :
    ∃ v, countMaxFirst votes = some v := by
  obtain ⟨e, he, hmax⟩ := exists_max_entry (votes.map (fun v => (v, votes.count v)))
    (by simpa using hne)
  obtain ⟨v, hv, rfl⟩ := List.mem_map.mp he
  have hp : (fun x => votes.all (fun u => decide (votes.count u ≤ votes.count x))) v
      = true := by
    simp only [List.all_eq_true, decide_eq_true_eq]
    intro u hu
    simpa using hmax (u, votes.count u) (List.mem_map_of_mem _ hu)
  unfold countMaxFirst
  rcases hf : votes.find?
      (fun x => votes.all (fun u => decide (votes.count u ≤ votes.count x))) with
    _ | x
  · exact absurd hp (List.find?_eq_none.mp hf v hv)
  · exact ⟨x, rfl⟩

/-! ## Claim theorems -/

set_option maxRecDepth 400000 in
/-- Claim C1 counterexample: the bound `5 ≤ risk.score` fails on the merge
paths.  The local analyzer run on six comment-only files (ten lines each,
comment ratio 1, complexity 1, no issues — exactly what `analyzeFile` yields
for an all-comment file) produces a baseline with `overallScore = 94` and the
floor risk score `5`; the sequential flow with the default weight `0.7` then
merges the candidate `{"risk":{"score":0}}` and stores
`blendScore(5, 0) = round(3.5) = 4 < 5`. -/
theorem c1_bounds_counterexample :
    ¬ (5 ≤ (runSequentialFlow (7/10)
        [("groq", Except.ok { model := "llama-3.3-70b-versatile", parsed := riskZeroCand })]
        demoLocalBase
        { mode := "sequential", providers := ["groq"], requested := "auto" }).risk.score) := by
  have h4 : (runSequentialFlow (7/10)
      [("groq", Except.ok { model := "llama-3.3-70b-versatile", parsed := riskZeroCand })]
      demoLocalBase
      { mode := "sequential", providers := ["groq"], requested := "auto" }).risk.score = 4 := by
    with_unfolding_all rfl
  rw [h4]
  norm_num

/-- Claim C1 (amended): for every report of the local-heuristics path the
claimed bounds hold exactly as stated (`10 ≤ overallScore ≤ 99`, categories in
`[0,100]`, `5 ≤ risk.score ≤ 100`, `heatmap ≤ 20`, `topIssues ≤ 12`,
`priorityFixes ≤ 6`); on the merge paths (single-candidate merge, hybrid
consensus merge, and hence every report the orchestrator returns from a
baseline satisfying the claimed bounds) the same bounds hold except that the
risk floor weakens from `5` to `0`: blending clamps the risk score to
`[0,100]`, so a candidate reporting a low risk score can pull the merged value
below `5` (see the counterexample). -/
theorem c1_bounds :
    (∀ generatedAt project sampling analyses,
      claimedBounds (buildLocalReport generatedAt project sampling analyses)) ∧
    (∀ (w : ℚ) (base : Report) (candidate : Candidate),
      claimedBounds base → mergedBounds (mergeReports w base candidate)) ∧
    (∀ (w : ℚ) (base : Report) (candidates : List SuccessItem),
      claimedBounds base → mergedBounds (mergeHybridReports w base candidates)) ∧
    (∀ (w : ℚ) (selectedRaw : String) (hasGemini hasGroq : Bool)
      (attempt : String → Outcome) (base : Report),
      claimedBounds base →
      mergedBounds (enrichReportWithAI w selectedRaw hasGemini hasGroq attempt base)) :=
  ⟨fun g p s a => buildLocalReport_claimedBounds g p s a,
   fun w b c h => mergeReports_mergedBounds w b c h,
   fun w b cs h => mergeHybridReports_mergedBounds w b cs h,
   fun w sel hg hq att b h => enrichReportWithAI_mergedBounds w sel hg hq att b h⟩

/-- Witness for the hypothesis-bearing conjuncts of C1: the concrete
`demoLocalBase` baseline satisfies the claimed bounds (discharged by the local
conjunct of the theorem at its concrete arguments), and merging the concrete
`riskZeroCand` into it satisfies the merged bounds. -/
theorem c1_bounds_witness :
    claimedBounds demoLocalBase ∧
    mergedBounds (mergeReports (7/10) demoLocalBase riskZeroCand) ∧
    mergedBounds (enrichReportWithAI (7/10) "auto" true false demoAttempt demoLocalBase) :=
  ⟨c1_bounds.1 "2024-01-01T00:00:00.000Z" "demo/project" "sampling:6/6" sixAnalyses,
   c1_bounds.2.1 (7/10) demoLocalBase riskZeroCand
     (c1_bounds.1 "2024-01-01T00:00:00.000Z" "demo/project" "sampling:6/6" sixAnalyses),
   c1_bounds.2.2.2 (7/10) "auto" true false demoAttempt demoLocalBase
     (c1_bounds.1 "2024-01-01T00:00:00.000Z" "demo/project" "sampling:6/6" sixAnalyses)⟩

/-- Claim C2: on every production path — local analyzer, single-candidate
merge, hybrid consensus merge, and the whole orchestrator provided its
baseline already satisfies the invariant — `overallScore` equals the clamped
weighted sum `0.30/0.25/0.25/0.10/0.10` of the final (post-merge) category
scores; it is re-derived from those scores, never read from a candidate
payload (the candidate model has no overall-score field because the source
never reads one). -/
theorem c2_overall_formula :
    (∀ generatedAt project sampling analyses,
      (buildLocalReport generatedAt project sampling analyses).overallScore =
        overallFormula (buildLocalReport generatedAt project sampling analyses).categories) ∧
    (∀ (w : ℚ) (base : Report) (candidate : Candidate),
      (mergeReports w base candidate).overallScore =
        overallFormula (mergeReports w base candidate).categories) ∧
    (∀ (w : ℚ) (base : Report) (candidates : List SuccessItem),
      (mergeHybridReports w base candidates).overallScore =
        overallFormula (mergeHybridReports w base candidates).categories) ∧
    (∀ (w : ℚ) (selectedRaw : String) (hasGemini hasGroq : Bool)
      (attempt : String → Outcome) (base : Report),
      base.overallScore = overallFormula base.categories →
      (enrichReportWithAI w selectedRaw hasGemini hasGroq attempt base).overallScore =
        overallFormula
          (enrichReportWithAI w selectedRaw hasGemini hasGroq attempt base).categories) :=
  ⟨fun g p s a => formulaInv_buildLocalReport g p s a,
   fun w b c => formulaInv_mergeReports w b c,
   fun w b cs => formulaInv_mergeHybridReports w b cs,
   fun w sel hg hq att b h => formulaInv_enrichReportWithAI w sel hg hq att b h⟩

/-- Witness for the hypothesis-bearing conjunct of C2: the orchestrator run on
the concrete `demoReport` baseline (whose overall score 70 satisfies the
formula) keeps the invariant. -/
theorem c2_overall_formula_witness :
    demoReport.overallScore = overallFormula demoReport.categories ∧
    (enrichReportWithAI (7/10) "auto" true false demoAttempt demoReport).overallScore =
      overallFormula
        (enrichReportWithAI (7/10) "auto" true false demoAttempt demoReport).categories :=
  ⟨by with_unfolding_all rfl,
   c2_overall_formula.2.2.2 (7/10) "auto" true false demoAttempt demoReport
     (by with_unfolding_all rfl)⟩

/-- Claim C9: neither merge strategy can alter the baseline's `heatmap`,
`confidence`, `project`, `generatedAt`, or the metadata fields
`analysisMeta.filesAnalyzed` and `analysisMeta.estimatedLoc` — for every
candidate payload and every set of candidate payloads those fields of the
merged report are the baseline's (and the `withMeta` stamp applied afterwards
also preserves them). -/
theorem c9_frame :
    (∀ (w : ℚ) (base : Report) (candidate : Candidate),
      (mergeReports w base candidate).heatmap = base.heatmap ∧
      (mergeReports w base candidate).confidence = base.confidence ∧
      (mergeReports w base candidate).project = base.project ∧
      (mergeReports w base candidate).generatedAt = base.generatedAt ∧
      (mergeReports w base candidate).analysisMeta.filesAnalyzed =
        base.analysisMeta.filesAnalyzed ∧
      (mergeReports w base candidate).analysisMeta.estimatedLoc =
        base.analysisMeta.estimatedLoc) ∧
    (∀ (w : ℚ) (base : Report) (candidates : List SuccessItem),
      (mergeHybridReports w base candidates).heatmap = base.heatmap ∧
      (mergeHybridReports w base candidates).confidence = base.confidence ∧
      (mergeHybridReports w base candidates).project = base.project ∧
      (mergeHybridReports w base candidates).generatedAt = base.generatedAt ∧
      (mergeHybridReports w base candidates).analysisMeta.filesAnalyzed =
        base.analysisMeta.filesAnalyzed ∧
      (mergeHybridReports w base candidates).analysisMeta.estimatedLoc =
        base.analysisMeta.estimatedLoc) ∧
    (∀ (w : ℚ) (r : Report) (patch : MetaPatch),
      (withMeta w r patch).heatmap = r.heatmap ∧
      (withMeta w r patch).confidence = r.confidence ∧
      (withMeta w r patch).project = r.project ∧
      (withMeta w r patch).generatedAt = r.generatedAt ∧
      (withMeta w r patch).analysisMeta.filesAnalyzed =
        r.analysisMeta.filesAnalyzed ∧
      (withMeta w r patch).analysisMeta.estimatedLoc =
        r.analysisMeta.estimatedLoc) :=
  ⟨fun _ _ _ => ⟨rfl, rfl, rfl, rfl, rfl, rfl⟩,
   fun _ _ _ => ⟨rfl, rfl, rfl, rfl, rfl, rfl⟩,
   fun _ _ _ => ⟨rfl, rfl, rfl, rfl, rfl, rfl⟩⟩

/-- Claim C5: with no provider credentials configured every requested mode
resolves to an empty execution plan and the orchestrator returns the baseline
report directly — identical to the baseline except for the meta stamp, with
`analysisMeta.provider = "local-heuristics"` and `fallbackUsed = true` — and it
makes no provider call: the result is independent of the attempt function. -/
theorem c5_no_credentials (w : ℚ) (selectedRaw : String)
    (attempt attempt2 : String → Outcome) (base : Report) :
    enrichReportWithAI w selectedRaw false false attempt base =
      withMeta w base
        { provider := "local-heuristics", model := "rule-engine-v2",
          fallbackUsed := true,
          fallbackReason :=
            some "No AI provider key configured. Set GEMINI_API_KEY or GROQ_API_KEY." } ∧
    (enrichReportWithAI w selectedRaw false false attempt base).analysisMeta.provider =
      "local-heuristics" ∧
    (enrichReportWithAI w selectedRaw false false attempt base).analysisMeta.fallbackUsed =
      true ∧
    enrichReportWithAI w selectedRaw false false attempt base =
      enrichReportWithAI w selectedRaw false false attempt2 base := by
  have he : ∀ att : String → Outcome,
      enrichReportWithAI w selectedRaw false false att base =
        withMeta w base
          { provider := "local-heuristics", model := "rule-engine-v2",
            fallbackUsed := true,
            fallbackReason :=
              some "No AI provider key configured. Set GEMINI_API_KEY or GROQ_API_KEY." } := by
    intro att
    unfold enrichReportWithAI
    simp [resolveExecutionPlan_noCredentials]
  refine ⟨he attempt, ?_, ?_, (he attempt).trans (he attempt2).symm⟩
  · rw [he attempt]
    rfl
  · rw [he attempt]
    rfl

/-- Claim C3: when exactly one hybrid provider attempt is fulfilled, the hybrid
flow returns exactly the single-candidate merge of the baseline with that
attempt's parsed payload, stamped with provider `"hybrid-partial:<name>"` and
`fallbackUsed = true`. -/
theorem c3_hybrid_partial_merge (w : ℚ) (attempts : List (String × Outcome))
    (base : Report) (s : SuccessItem) (h : hybridSuccesses attempts = [s]) :
    runHybridFlow w attempts base =
      withMeta w (mergeReports w base s.parsed)
        { provider := "hybrid-partial:" ++ s.provider, model := s.model,
          fallbackUsed := true,
          fallbackReason :=
            buildFailureReason (hybridFailures attempts)
              "One provider failed during hybrid analysis." } ∧
    (runHybridFlow w attempts base).analysisMeta.provider =
      "hybrid-partial:" ++ s.provider ∧
    (runHybridFlow w attempts base).analysisMeta.fallbackUsed = true := by
  have he : runHybridFlow w attempts base =
      withMeta w (mergeReports w base s.parsed)
        { provider := "hybrid-partial:" ++ s.provider, model := s.model,
          fallbackUsed := true,
          fallbackReason :=
            buildFailureReason (hybridFailures attempts)
              "One provider failed during hybrid analysis." } := by
    unfold runHybridFlow
    rw [h]
  refine ⟨he, ?_, ?_⟩
  · rw [he]
    rfl
  · rw [he]
    rfl

/-- Witness for C3: on the concrete settled attempts in which gemini fails and
groq succeeds, the hybrid flow equals the single-candidate merge of the groq
payload, tagged `hybrid-partial:groq`. -/
theorem c3_hybrid_partial_merge_witness :
    hybridSuccesses demoHybridAttempts = [demoGroqItem] ∧
    runHybridFlow (7/10) demoHybridAttempts demoReport =
      withMeta (7/10) (mergeReports (7/10) demoReport demoGroqItem.parsed)
        { provider := "hybrid-partial:" ++ demoGroqItem.provider,
          model := demoGroqItem.model,
          fallbackUsed := true,
          fallbackReason :=
            buildFailureReason (hybridFailures demoHybridAttempts)
              "One provider failed during hybrid analysis." } :=
  ⟨rfl, (c3_hybrid_partial_merge (7/10) demoHybridAttempts demoReport demoGroqItem rfl).1⟩

/-- Claim C4: the sequential flow walks the settled attempts strictly in plan
order.  First conjunct: whatever failures precede it, the first fulfilled
attempt is merged and returned immediately — the result does not depend on the
later attempts at all (they are never inspected), and each earlier failure is
swallowed.  Second conjunct: when every attempt fails, the baseline is
returned with `fallbackUsed = true` and `fallbackReason` recording the last
error's (non-empty) message. -/
theorem c4_sequential :
    (∀ (w : ℚ) (base : Report) (execution : ExecutionPlan)
       (pre post : List (String × Outcome)) (p : String) (c : CompletionSuccess),
      (∀ x ∈ pre, ∃ e, x.2 = Except.error e) →
      runSequentialFlow w (pre ++ (p, Except.ok c) :: post) base execution =
        withMeta w (mergeReports w base c.parsed)
          { provider := p, model := c.model,
            fallbackUsed :=
              HYBRID_MODES.contains execution.requested &&
                (execution.providers.length == 1),
            fallbackReason :=
              if HYBRID_MODES.contains execution.requested &&
                  (execution.providers.length == 1) then
                some "Hybrid mode requested, but only one provider key is configured."
              else none }) ∧
    (∀ (w : ℚ) (base : Report) (execution : ExecutionPlan)
       (attempts : List (String × Outcome)) (p e : String),
      (∀ x ∈ attempts, ∃ msg, x.2 = Except.error msg) → e ≠ "" →
      runSequentialFlow w (attempts ++ [(p, Except.error e)]) base execution =
        withMeta w base
          { provider := "local-heuristics", model := "rule-engine-v2",
            fallbackUsed := true, fallbackReason := some e }) := by
  constructor
  · intro w base execution pre post p c hpre
    unfold runSequentialFlow
    have haux : ∀ (pre : List (String × Outcome)) (lastError : Option String),
        (∀ x ∈ pre, ∃ e, x.2 = Except.error e) →
        runSequentialFlowAux w base execution (pre ++ (p, Except.ok c) :: post) lastError =
          withMeta w (mergeReports w base c.parsed)
            { provider := p, model := c.model,
              fallbackUsed :=
                HYBRID_MODES.contains execution.requested &&
                  (execution.providers.length == 1),
              fallbackReason :=
                if HYBRID_MODES.contains execution.requested &&
                    (execution.providers.length == 1) then
                  some "Hybrid mode requested, but only one provider key is configured."
                else none } := by
      intro pre
      induction pre with
      | nil => intro lastError _; rfl
      | cons head rest ih =>
        intro lastError hall
        obtain ⟨e, he⟩ := hall head (List.mem_cons_self _ _)
        rcases head with ⟨q, o⟩
        cases o with
        | error msg =>
          exact ih (some msg) (fun x hx => hall x (List.mem_cons_of_mem _ hx))
        | ok comp => simp at he
    exact haux pre none hpre
  · intro w base execution attempts p e hall he
    unfold runSequentialFlow
    have haux : ∀ (attempts : List (String × Outcome)) (lastError : Option String),
        (∀ x ∈ attempts, ∃ msg, x.2 = Except.error msg) →
        runSequentialFlowAux w base execution (attempts ++ [(p, Except.error e)]) lastError =
          withMeta w base
            { provider := "local-heuristics", model := "rule-engine-v2",
              fallbackUsed := true, fallbackReason := some e } := by
      intro attempts
      induction attempts with
      | nil =>
        intro lastError _
        show runSequentialFlowAux w base execution [] (some e) = _
        unfold runSequentialFlowAux
        simp [extractErrorMessage, he]
      | cons head rest ih =>
        intro lastError hall2
        obtain ⟨msg, hmsg⟩ := hall2 head (List.mem_cons_self _ _)
        rcases head with ⟨q, o⟩
        cases o with
        | error m =>
          exact ih (some m) (fun x hx => hall2 x (List.mem_cons_of_mem _ hx))
        | ok comp => simp at hmsg
    exact haux attempts none hall

/-- Witness for C4: on the concrete attempt lists, a failing gemini attempt
followed by a fulfilled groq attempt returns the groq merge, and two failing
attempts return the stamped baseline recording the last message. -/
theorem c4_sequential_witness :
    runSequentialFlow (7/10)
      [("gemini", Except.error "boom"),
       ("groq", Except.ok { model := "llama-3.3-70b-versatile",
                            parsed := securityNinetyCand })]
      demoReport
      { mode := "sequential", providers := ["gemini", "groq"], requested := "auto" } =
      withMeta (7/10)
        (mergeReports (7/10) demoReport securityNinetyCand)
        { provider := "groq", model := "llama-3.3-70b-versatile",
          fallbackUsed := false, fallbackReason := none } ∧
    runSequentialFlow (7/10)
      [("gemini", Except.error "boom"), ("groq", Except.error "rate limited")]
      demoReport
      { mode := "sequential", providers := ["gemini", "groq"], requested := "auto" } =
      withMeta (7/10) demoReport
        { provider := "local-heuristics", model := "rule-engine-v2",
          fallbackUsed := true, fallbackReason := some "rate limited" } := by
  constructor
  · exact c4_sequential.1 (7/10) demoReport
      { mode := "sequential", providers := ["gemini", "groq"], requested := "auto" }
      [("gemini", Except.error "boom")] [] "groq"
      { model := "llama-3.3-70b-versatile", parsed := securityNinetyCand }
      (by
        intro x hx
        rw [List.mem_singleton] at hx
        subst hx
        exact ⟨"boom", rfl⟩)
  · exact c4_sequential.2 (7/10) demoReport
      { mode := "sequential", providers := ["gemini", "groq"], requested := "auto" }
      [("gemini", Except.error "boom")] "groq" "rate limited"
      (by
        intro x hx
        rw [List.mem_singleton] at hx
        subst hx
        exact ⟨"boom", rfl⟩)
      (by simp)

/-- Claim C8: whenever the orchestrator returns a report with
`analysisMeta.fallbackUsed = false`, at least one provider attempt was
fulfilled (`attempt p = ok ...` for some planned provider) and the returned
report is a merge of the baseline with successful candidate data (either the
single-candidate merge or the non-empty consensus merge, then stamped); every
path that returns the unmerged baseline — no credentials, all sequential
attempts failed, all hybrid attempts failed — stamps `fallbackUsed = true`. -/
theorem c8_fallback_flag (w : ℚ) (selectedRaw : String) (hasGemini hasGroq : Bool)
    (attempt : String → Outcome) (base : Report)
    (h : (enrichReportWithAI w selectedRaw hasGemini hasGroq attempt base).analysisMeta.fallbackUsed
      = false) :
    (∃ p c, attempt p = Except.ok c) ∧
      mergedFromCandidate w base
        (enrichReportWithAI w selectedRaw hasGemini hasGroq attempt base) := by
  by_cases h1 : (resolveExecutionPlan selectedRaw hasGemini hasGroq).providers.isEmpty = true
  · have he : enrichReportWithAI w selectedRaw hasGemini hasGroq attempt base =
        withMeta w base
          { provider := "local-heuristics", model := "rule-engine-v2",
            fallbackUsed := true,
            fallbackReason :=
              some "No AI provider key configured. Set GEMINI_API_KEY or GROQ_API_KEY." } := by
      unfold enrichReportWithAI
      simp [h1]
    rw [he] at h
    simp at h
  · by_cases h2 : (resolveExecutionPlan selectedRaw hasGemini hasGroq).mode = "hybrid" ∧
        (resolveExecutionPlan selectedRaw hasGemini hasGroq).providers.length > 1
    · have he : enrichReportWithAI w selectedRaw hasGemini hasGroq attempt base =
          runHybridFlow w
            ((resolveExecutionPlan selectedRaw hasGemini hasGroq).providers.map
              (fun p => (p, attempt p))) base := by
        unfold enrichReportWithAI
        simp [h1, h2]
      rw [he] at h ⊢
      obtain ⟨⟨p, c, hm⟩, hmerged⟩ := runHybridFlow_fallbackFalse w _ base h
      exact ⟨⟨p, c, attempt_ok_of_mem_map _ attempt p c hm⟩, hmerged⟩
    · have he : enrichReportWithAI w selectedRaw hasGemini hasGroq attempt base =
          runSequentialFlow w
            ((resolveExecutionPlan selectedRaw hasGemini hasGroq).providers.map
              (fun p => (p, attempt p))) base
            (resolveExecutionPlan selectedRaw hasGemini hasGroq) := by
        unfold enrichReportWithAI
        simp [h1, h2]
      rw [he] at h ⊢
      obtain ⟨p, c, patch, hm, heq⟩ :=
        runSequentialFlowAux_fallbackFalse w base _ _ none h
      refine ⟨⟨p, c, attempt_ok_of_mem_map _ attempt p c hm⟩, Or.inl ?_⟩
      exact ⟨c.parsed, patch, heq⟩

/-- Witness for C8: a concrete sequential run in which gemini succeeds returns
`fallbackUsed = false`, so the theorem applies and exhibits the merged result. -/
theorem c8_fallback_flag_witness :
    (∃ p c, demoAttempt p = Except.ok c) ∧
      mergedFromCandidate (7/10) demoReport
        (enrichReportWithAI (7/10) "auto" true false demoAttempt demoReport) :=
  c8_fallback_flag (7/10) "auto" true false demoAttempt demoReport
    (by with_unfolding_all rfl)

/-- Claim C7: in the hybrid consensus merge with local weight `0.8`, when every
successful candidate reports security `90` and the baseline security score is
`60`, the merged security category equals `round(60·0.8 + 90·0.2) = 66` — the
candidate values are averaged first (each value clamped into `[0,100]`) and the
average is then blended with the baseline by the fixed weights. -/
theorem c7_consensus_blend (base : Report) (candidates : List SuccessItem)
    (hne : candidates ≠ [])
    (hall : ∀ item ∈ candidates, item.parsed.categories.security = some (90 : ℚ))
    (hbase : base.categories.security = 60) :
    (mergeHybridReports (4/5) base candidates).categories.security = 66 := by
  have hsec : (mergeHybridReports (4/5) base candidates).categories.security =
      hybridBlend (4/5) base.categories.security
        (candidates.map (fun item => item.parsed.categories.security)) := rfl
  rw [hsec, hbase]
  rw [hybridBlend_all_eq (4/5) 60 90 _ (by simpa using hne)
    (fun x hx => by
      obtain ⟨item, hitem, rfl⟩ := List.mem_map.mp hx
      exact hall item hitem)]
  have h90 : (clamp (mathRound (90 : ℚ)) 0 100 : ℤ) = 90 := by
    have : mathRound ((90 : ℤ) : ℚ) = 90 := mathRound_intCast 90
    rw [show ((90 : ℤ) : ℚ) = (90 : ℚ) by norm_num] at this
    rw [this]
    rfl
  rw [h90]
  have hsum : (60 : ℚ) * (4/5) + 90 * (1 - 4/5) = ((66 : ℤ) : ℚ) := by norm_num
  unfold blendScore
  rw [show ((60 : ℤ) : ℚ) = (60 : ℚ) by norm_num,
    show ((90 : ℤ) : ℚ) = (90 : ℚ) by norm_num, hsum, mathRound_intCast]
  rfl

/-- Witness for C7: the concrete two-provider consensus (both reporting
security 90) over `demoReport` (baseline security 60) yields 66. -/
theorem c7_consensus_blend_witness :
    (mergeHybridReports (4/5) demoReport securityNinetyItems).categories.security = 66 :=
  c7_consensus_blend demoReport securityNinetyItems
    (by simp [securityNinetyItems])
    (by
      intro item hm
      simp only [securityNinetyItems, List.mem_cons, List.not_mem_nil, or_false] at hm
      rcases hm with rfl | rfl <;> rfl)
    rfl

/-- Claim C10: the two merge strategies treat out-of-range candidate category
values differently.  General part: for a candidate supplying a finite security
value `v`, the single-candidate merge blends the raw `v` (only the blended
result is clamped), while the hybrid consensus merge over that one opinion
first clamps `round(v)` into `[0,100]` and blends the clamped value.  Concrete
part: with baseline security 60, candidate security 200 and weight `0.7`, the
two paths produce 100 and 72 — different scores. -/
theorem c10_clamp_asymmetry :
    (∀ (w : ℚ) (base : Report) (c : Candidate) (v : ℚ),
      c.categories.security = some v →
      (mergeReports w base c).categories.security =
        blendScore w (base.categories.security : ℚ) v ∧
      (mergeHybridReports w base
        [{ provider := "p", model := "m", parsed := c }]).categories.security =
        blendScore w (base.categories.security : ℚ)
          ((clamp (mathRound v) 0 100 : ℤ) : ℚ)) ∧
    ((mergeReports (7/10) demoReport securityHugeCand).categories.security = 100 ∧
     (mergeHybridReports (7/10) demoReport [securityHugeItem]).categories.security = 72 ∧
     (100 : ℤ) ≠ 72) := by
  constructor
  · intro w base c v h
    constructor
    · show blendOpt w base.categories.security c.categories.security = _
      rw [h]
      rfl
    · show hybridBlend w base.categories.security [c.categories.security] = _
      rw [h]
      exact hybridBlend_all_eq w _ v [some v] (by simp) (by simp)
  · refine ⟨?_, ?_, by norm_num⟩
    · with_unfolding_all rfl
    · with_unfolding_all rfl

/-- Witness for C10's general conjunct: applied to the concrete out-of-range
candidate value 200 over `demoReport`. -/
theorem c10_clamp_asymmetry_witness :
    (mergeReports (7/10) demoReport securityHugeCand).categories.security =
      blendScore (7/10) (demoReport.categories.security : ℚ) 200 ∧
    (mergeHybridReports (7/10) demoReport
      [{ provider := "p", model := "m", parsed := securityHugeCand }]).categories.security =
      blendScore (7/10) (demoReport.categories.security : ℚ)
        ((clamp (mathRound 200) 0 100 : ℤ) : ℚ) :=
  c10_clamp_asymmetry.1 (7/10) demoReport securityHugeCand 200 rfl

/-- Claim C6 counterexample: the tie-break is NOT re-derivation from the
blended score.  With one candidate voting Low and one Critical (a 1–1 tie) and
both pushing the blended risk score to 58 — whose derived level is
"Elevated" — the code keeps the first-seen vote "Low". -/
theorem c6_risk_vote_counterexample :
    tiedVoteItems.filterMap (fun item => sanitizeRiskLevel item.parsed.risk.level) =
      ["Low", "Critical"] ∧
    (mergeHybridReports (7/10) demoReport tiedVoteItems).risk.level = "Low" ∧
    (mergeHybridReports (7/10) demoReport tiedVoteItems).risk.score = 58 ∧
    deriveRiskLevel 58 = "Elevated" ∧
    ("Low" : String) ≠ "Elevated" := by
  refine ⟨by with_unfolding_all rfl, by with_unfolding_all rfl,
    by with_unfolding_all rfl, rfl, by simp⟩

/-- Claim C6 (amended): in the hybrid consensus merge, the final `risk.level`
is the first-seen most frequent sanitized vote — the earliest vote (in
candidate order) among those whose occurrence count is maximal; only the four
canonical levels count as votes.  Ties among equally frequent levels are
broken by first-seen order, not by re-deriving from the blended score (see the
counterexample).  When no candidate supplies a sanitizable level, the level is
derived from the blended risk score. -/
theorem c6_risk_vote (w : ℚ) (base : Report) (candidates : List SuccessItem) :
    (candidates.filterMap (fun item => sanitizeRiskLevel item.parsed.risk.level) = [] →
      (mergeHybridReports w base candidates).risk.level =
        deriveRiskLevel (mergeHybridReports w base candidates).risk.score) ∧
    (candidates.filterMap (fun item => sanitizeRiskLevel item.parsed.risk.level) ≠ [] →
      some (mergeHybridReports w base candidates).risk.level =
        countMaxFirst
          (candidates.filterMap (fun item => sanitizeRiskLevel item.parsed.risk.level))) := by
  have hlevel : (mergeHybridReports w base candidates).risk.level =
      (mostFrequent (candidates.filterMap
        (fun item => sanitizeRiskLevel item.parsed.risk.level))).getD
        (deriveRiskLevel (mergeHybridReports w base candidates).risk.score) := rfl
  constructor
  · intro hv
    rw [hlevel, hv]
    rfl
  · intro hv
    rw [hlevel, mostFrequent_eq_countMaxFirst _ hv]
    obtain ⟨v, hsome⟩ := countMaxFirst_exists _ hv
    rw [hsome]
    rfl

/-- Witness for C6: on the concrete tied vote (Low first, Critical second) the
merged level is the first-seen count-maximal vote. -/
theorem c6_risk_vote_witness :
    tiedVoteItems.filterMap (fun item => sanitizeRiskLevel item.parsed.risk.level) ≠ [] ∧
    some (mergeHybridReports (7/10) demoReport tiedVoteItems).risk.level =
      countMaxFirst
        (tiedVoteItems.filterMap (fun item => sanitizeRiskLevel item.parsed.risk.level)) := by
  have hv : tiedVoteItems.filterMap
      (fun item => sanitizeRiskLevel item.parsed.risk.level) ≠ [] := by
    have heq : tiedVoteItems.filterMap
        (fun item => sanitizeRiskLevel item.parsed.risk.level) = ["Low", "Critical"] := by
      with_unfolding_all rfl
    rw [heq]
    simp
  exact ⟨hv, (c6_risk_vote (7/10) demoReport tiedVoteItems).2 hv⟩

end RepoHealth
